import Mathlib

/-!
# LXESP8266UARTDMX: the DMX512 transmit engine

A shallow embedding of `LXESP8266UARTDMX.cpp`: the UART1 register helpers, the
public surface of `LX8266DMXOutput` (constructors, `start`, `stop`,
`setMaxSlots`, `setSlot`, `dmxData`) and the transmit-FIFO-empty interrupt
handler `_tx_empty_irq` with its five-state machine.

Modelling decisions.

* The object and the UART1 registers it drives form one record,
  `LX8266DMXOutput`, with the hardware part in the field `hw`.
* Constants that the source uses but that are defined in headers outside the
  source file (`DMX_MIN_SLOTS`, `DMX_MAX_SLOTS`, `ESP8266_CLOCK`, `UIFE`,
  `UCTXRST`, `UCFFT`) are the fields of `Config`; every definition takes the
  configuration as a parameter.
* The class declaration is in the header as well.  The slot count `_slots` is
  16 bits wide, the width the constructor takes a slot count in (`uint16_t
  slots`): an assignment of an `int` to it keeps the low 16 bits.  The header
  constant `DMX_MAX_SLOTS` is stored as it is.  The widths of the two counters
  are not known; they are natural numbers.  The slot buffer is a list of bytes
  whose length is the declared array size.
* An access outside the buffer is undefined behaviour.  A store outside it,
  which could change anything, is rendered as `none`.  A read outside it yields
  a byte of the memory behind the buffer, the field `behind`, about which
  nothing is assumed; `readSlot` is the only place that consults it.
* Every write to the transmit FIFO register `USF(1)` is appended to a log
  together with the divisor and format registers in force at that moment.
-/

namespace LXESP8266DMX

/-! ## Constants -/

/-- Constants taken from headers that are not part of the source file. -/
structure Config where
  /-- Protocol minimum of the slot count (`LXESP8266UARTDMX.h`). -/
  DMX_MIN_SLOTS : Nat
  /-- Largest slot index; the slot buffer has `DMX_MAX_SLOTS + 1` entries. -/
  DMX_MAX_SLOTS : Nat
  /-- Peripheral clock in Hz, the numerator of the baud divisor. -/
  ESP8266_CLOCK : Nat
  /-- Bit number of "TX FIFO empty" in the interrupt registers. -/
  UIFE : Nat
  /-- Bit number of "reset TX FIFO" in the `USC0` register. -/
  UCTXRST : Nat
  /-- Shift of the FIFO threshold field in the `USC1` register. -/
  UCFFT : Nat
deriving DecidableEq

def UART0 : Int := 0
def UART1 : Int := 1
def UART_NO : Int := -1

def DMX_DATA_BAUD : Nat := 250000
def DMX_BREAK_BAUD : Nat := 90000

def FORMAT_8N2 : Nat := 0x3C
def FORMAT_8E1 : Nat := 0x1C

/-! The layout of a frame format, as the comment above the two format constants
in the source gives it. -/

def UART_STOP_BIT_NUM_SHIFT : Nat := 4
def TWO_STOP_BIT : Nat := 0x3
def ONE_STOP_BIT : Nat := 0x1

def UART_BIT_NUM_SHIFT : Nat := 2
def EIGHT_BITS : Nat := 0x3

/-- Bit number of "parity enable". -/
def UCPAE : Nat := 1
/-- Bit number of the parity selection, 0: even, 1: odd. -/
def UCPA : Nat := 0

/-- The stop-bit field of a frame format: the two bits from
`UART_STOP_BIT_NUM_SHIFT` up. -/
def formatStopBits (config : Nat) : Nat := (config >>> UART_STOP_BIT_NUM_SHIFT) &&& 0x3

/-- The data-bit field of a frame format: the two bits from
`UART_BIT_NUM_SHIFT` up. -/
def formatDataBits (config : Nat) : Nat := (config >>> UART_BIT_NUM_SHIFT) &&& 0x3

/-- Whether a frame format has the parity bit enabled. -/
def formatParityEnabled (config : Nat) : Bool := config.testBit UCPAE

/-- Whether a frame format selects odd parity (it selects even parity
otherwise). -/
def formatParityOdd (config : Nat) : Bool := config.testBit UCPA

def DMX_STATE_BREAK : Nat := 0
def DMX_STATE_START : Nat := 1
def DMX_STATE_DATA : Nat := 2
def DMX_STATE_IDLE : Nat := 3
def DMX_STATE_BREAK_SENT : Nat := 4

def DATA_END_WAIT : Nat := 25
def BREAK_SENT_WAIT : Nat := 70

def ISR_DISABLED : Nat := 0
def ISR_ENABLED : Nat := 1

/-! ## Hardware -/

/-- Arduino pin modes used by the driver. -/
inductive PinMode where
  | INPUT
  | OUTPUT
  | SPECIAL
deriving DecidableEq

/-- One write to the transmit FIFO register `USF(1)`: the byte, and the
divisor and format registers of UART1 at the moment of the write. -/
structure TxWrite where
  USD : Nat
  USC0 : Nat
  value : Nat
deriving DecidableEq

/-- UART1 registers, the UART interrupt line and the GPIO pins. -/
structure Hardware where
  /-- Clock divider register `USD(1)`. -/
  USD : Nat
  /-- Configuration register `USC0(1)` (frame format, FIFO reset bits). -/
  USC0 : Nat
  /-- Configuration register `USC1(1)` (FIFO thresholds). -/
  USC1 : Nat
  /-- Interrupt enable register `USIE(1)`. -/
  USIE : Nat
  /-- Last value written to the interrupt clear register `USIC(1)`. -/
  USIC : Nat
  /-- Interrupt status register `USIS(1)`. -/
  USIS : Nat
  /-- Log of the writes to the FIFO register `USF(1)`, oldest first. -/
  USF : List TxWrite
  /-- Whether `uart_tx_interrupt_handler` is attached to the UART interrupt. -/
  intr_attached : Bool
  /-- Whether the UART interrupt line is enabled (`ETS_UART_INTR_ENABLE`). -/
  intr_enabled : Bool
  /-- Mode of every GPIO pin. -/
  pin_mode : Nat → PinMode
  /-- Output level of every GPIO pin. -/
  pin_level : Nat → Bool

/-- Value `1 << n` of a 32-bit register mask. -/
def bit32 (n : Nat) : Nat := (1 <<< n) % 2 ^ 32

/-- Bitwise complement of a 32-bit value. -/
def not32 (m : Nat) : Nat := (2 ^ 32 - 1) ^^^ (m % 2 ^ 32)

def pinMode (pin : Nat) (mode : PinMode) (hw : Hardware) : Hardware :=
  { hw with pin_mode := Function.update hw.pin_mode pin mode }

def digitalWrite (pin : Nat) (level : Bool) (hw : Hardware) : Hardware :=
  { hw with pin_level := Function.update hw.pin_level pin level }

/-- Store to `USF(1)`: the byte enters the transmit FIFO. -/
def USF_write (value : Nat) (hw : Hardware) : Hardware :=
  { hw with USF := hw.USF ++ [{ USD := hw.USD, USC0 := hw.USC0, value := value }] }

/-- `uart_tx_flush`: pulse the TX FIFO reset bit of `USC0(UART1)`. -/
def uart_tx_flush (cfg : Config) (hw : Hardware) : Hardware :=
  let tmp := 0 ||| bit32 cfg.UCTXRST
  let hw1 := { hw with USC0 := hw.USC0 ||| tmp }
  { hw1 with USC0 := hw1.USC0 &&& not32 tmp }

/-- `uart_enable_tx_interrupt`: clear pending interrupts, attach the handler,
unmask "TX FIFO empty" and enable the UART interrupt. -/
def uart_enable_tx_interrupt (cfg : Config) (hw : Hardware) : Hardware :=
  { hw with
    USIC := 0x1ff
    intr_attached := true
    USIE := hw.USIE ||| bit32 cfg.UIFE
    intr_enabled := true }

/-- `uart_disable_tx_interrupt`: mask "TX FIFO empty" and disable the UART
interrupt. -/
def uart_disable_tx_interrupt (cfg : Config) (hw : Hardware) : Hardware :=
  { hw with
    USIE := hw.USIE &&& not32 (bit32 cfg.UIFE)
    intr_enabled := false }

/-- `uart_set_baudrate`: only the registers of UART1 are part of the model. -/
def uart_set_baudrate (cfg : Config) (uart_nr : Int) (baud_rate : Nat)
    (hw : Hardware) : Hardware :=
  if uart_nr = UART1 then { hw with USD := cfg.ESP8266_CLOCK / baud_rate } else hw

/-- `uart_set_config`: only the registers of UART1 are part of the model. -/
def uart_set_config (uart_nr : Int) (config : Nat) (hw : Hardware) : Hardware :=
  if uart_nr = UART1 then { hw with USC0 := config % 256 } else hw

/-- `uart_init_tx(baudrate, config, dmxo)`. -/
def uart_init_tx (cfg : Config) (baudrate : Nat) (config : Nat)
    (hw : Hardware) : Hardware :=
  let hw1 := pinMode 2 PinMode.SPECIAL hw
  let conf1 := 0
  let hw2 := uart_set_baudrate cfg UART1 baudrate hw1
  let hw3 := { hw2 with USC0 := config % 256 }
  let hw4 := uart_tx_flush cfg hw3
  let hw5 := uart_enable_tx_interrupt cfg hw4
  let conf1 := conf1 ||| ((0x01 <<< cfg.UCFFT) % 2 ^ 32)
  { hw5 with USC1 := conf1 }

/-- `uart_uninit_tx`. -/
def uart_uninit_tx (cfg : Config) (hw : Hardware) : Hardware :=
  pinMode 2 PinMode.INPUT (uart_disable_tx_interrupt cfg hw)

/-! ## The transmit engine -/

/-- The member fields of `LX8266DMXOutput`, the hardware it drives, and the
memory that lies behind its slot buffer. -/
structure LX8266DMXOutput where
  _interrupt_status : Nat
  _dmx_state : Nat
  _idle_count : Nat
  _current_slot : Nat
  _slots : Nat
  /-- Slot buffer; index 0 is the start code. -/
  _dmxData : List Nat
  hw : Hardware
  /-- What a read at an index outside the slot buffer finds in memory. -/
  behind : Nat → Nat

namespace LX8266DMXOutput

/-- `LX8266DMXOutput::LX8266DMXOutput(void)`.  The argument `raw` is the
storage the object is built in: the constructor leaves `_dmx_state`,
`_idle_count` and `_current_slot` as it finds them. -/
def new (cfg : Config) (raw : LX8266DMXOutput) : LX8266DMXOutput :=
  { raw with
    _slots := cfg.DMX_MAX_SLOTS
    _dmxData := List.replicate (cfg.DMX_MAX_SLOTS + 1) 0
    _interrupt_status := ISR_DISABLED }

/-- `LX8266DMXOutput::LX8266DMXOutput(uint8_t pin, uint16_t slots)`. -/
def newWithPin (cfg : Config) (raw : LX8266DMXOutput) (pin : Nat) (slots : Nat) :
    LX8266DMXOutput :=
  let pin := pin % 2 ^ 8
  let slots := slots % 2 ^ 16
  { raw with
    hw := digitalWrite pin true (pinMode pin PinMode.OUTPUT raw.hw)
    _slots := slots
    _dmxData := List.replicate (cfg.DMX_MAX_SLOTS + 1) 0
    _interrupt_status := ISR_DISABLED }

/-- `LX8266DMXOutput::start`. -/
def start (cfg : Config) (e : LX8266DMXOutput) : LX8266DMXOutput :=
  if e._interrupt_status ≠ ISR_ENABLED then
    { e with
      _interrupt_status := ISR_ENABLED
      _dmx_state := DMX_STATE_IDLE
      _idle_count := 0
      hw := uart_init_tx cfg DMX_DATA_BAUD FORMAT_8N2 e.hw }
  else e

/-- `LX8266DMXOutput::stop`. -/
def stop (cfg : Config) (e : LX8266DMXOutput) : LX8266DMXOutput :=
  { e with
    hw := uart_uninit_tx cfg e.hw
    _interrupt_status := ISR_DISABLED }

/-- `LX8266DMXOutput::setMaxSlots(int slots)`.  The value of
`max(slots, DMX_MIN_SLOTS)` is an `int`; the assignment to the 16-bit member
`_slots` keeps its low 16 bits. -/
def setMaxSlots (cfg : Config) (e : LX8266DMXOutput) (slots : Int) : LX8266DMXOutput :=
  { e with _slots := (max slots (cfg.DMX_MIN_SLOTS : Int)).toNat % 2 ^ 16 }

/-- `LX8266DMXOutput::setSlot(int slot, uint8_t value)`.  A store outside the
buffer is undefined behaviour. -/
def setSlot (e : LX8266DMXOutput) (slot : Int) (value : Nat) : Option LX8266DMXOutput :=
  if 0 ≤ slot ∧ slot.toNat < e._dmxData.length then
    some { e with _dmxData := e._dmxData.set slot.toNat (value % 2 ^ 8) }
  else none

/-- `LX8266DMXOutput::dmxData`: the caller gets the slot buffer itself. -/
def dmxData (e : LX8266DMXOutput) : List Nat := e._dmxData

/-- The read `_dmxData[i]` of the handler: the buffer entry, or for an index
outside the buffer the byte that lies there. -/
def readSlot (e : LX8266DMXOutput) (i : Nat) : Nat :=
  match e._dmxData[i]? with
  | some b => b
  | none => e.behind i % 2 ^ 8

/-- `LX8266DMXOutput::_tx_empty_irq`, the reaction to "TX FIFO empty". -/
def _tx_empty_irq (cfg : Config) (e : LX8266DMXOutput) : LX8266DMXOutput :=
  if e._dmx_state = DMX_STATE_BREAK then
    let hw1 := uart_set_baudrate cfg UART1 DMX_BREAK_BAUD e.hw
    let hw2 := uart_set_config UART1 FORMAT_8E1 hw1
    { e with
      hw := USF_write 0x0 hw2
      _dmx_state := DMX_STATE_BREAK_SENT
      _idle_count := 0 }
  else if e._dmx_state = DMX_STATE_START then
    let hw1 := uart_set_baudrate cfg UART1 DMX_DATA_BAUD e.hw
    let hw2 := uart_set_config UART1 FORMAT_8N2 hw1
    { e with
      hw := USF_write (readSlot e 0) hw2
      _current_slot := 0 + 1
      _dmx_state := DMX_STATE_DATA }
  else if e._dmx_state = DMX_STATE_DATA then
    let e1 := { e with
      hw := USF_write (readSlot e e._current_slot) e.hw
      _current_slot := e._current_slot + 1 }
    if e1._current_slot > e1._slots then
      { e1 with _dmx_state := DMX_STATE_IDLE, _idle_count := 0 }
    else e1
  else if e._dmx_state = DMX_STATE_IDLE then
    let e1 := { e with _idle_count := e._idle_count + 1 }
    if e1._idle_count > DATA_END_WAIT then
      { e1 with _dmx_state := DMX_STATE_BREAK }
    else e1
  else if e._dmx_state = DMX_STATE_BREAK_SENT then
    let e1 := { e with _idle_count := e._idle_count + 1 }
    if e1._idle_count > BREAK_SENT_WAIT then
      { e1 with _dmx_state := DMX_STATE_START }
    else e1
  else e

/-- The handler applied to `n` successive "TX FIFO empty" events, with no
other call in between. -/
def irqs (cfg : Config) : Nat → LX8266DMXOutput → LX8266DMXOutput
  | 0, e => e
  | n + 1, e => irqs cfg n (_tx_empty_irq cfg e)

/-- What one "TX FIFO empty" event looked like from outside: the value of
`_dmx_state` the handler found, and the bytes it put into the FIFO. -/
structure Event where
  state : Nat
  writes : List TxWrite
deriving DecidableEq

/-- The event that takes the engine from `e` to `e1`. -/
def eventOf (e e1 : LX8266DMXOutput) : Event :=
  { state := e._dmx_state, writes := e1.hw.USF.drop e.hw.USF.length }

/-- The handler applied to `n` successive events, keeping the list of events
next to the final engine. -/
def run (cfg : Config) : Nat → LX8266DMXOutput → List Event × LX8266DMXOutput
  | 0, e => ([], e)
  | n + 1, e =>
    let e1 := _tx_empty_irq cfg e
    let r := run cfg n e1
    (eventOf e e1 :: r.1, r.2)

end LX8266DMXOutput

/-- `uart_tx_interrupt_handler`: when "TX FIFO empty" is pending, clear it and
call the engine. -/
def uart_tx_interrupt_handler (cfg : Config) (dmxo : LX8266DMXOutput) : LX8266DMXOutput :=
  if dmxo.hw.USIS &&& bit32 cfg.UIFE ≠ 0 then
    LX8266DMXOutput._tx_empty_irq cfg
      { dmxo with hw := { dmxo.hw with USIC := bit32 cfg.UIFE } }
  else dmxo

/-- The calls a client or the interrupt can make on an engine. -/
inductive Op where
  | setMaxSlots (slots : Int)
  | setSlot (slot : Int) (value : Nat)
  | start
  | stop
  | tx_empty_irq
deriving DecidableEq

/-- One call. -/
def applyOp (cfg : Config) (op : Op) (e : LX8266DMXOutput) : Option LX8266DMXOutput :=
  match op with
  | Op.setMaxSlots slots => some (e.setMaxSlots cfg slots)
  | Op.setSlot slot value => e.setSlot slot value
  | Op.start => some (e.start cfg)
  | Op.stop => some (e.stop cfg)
  | Op.tx_empty_irq => some (e._tx_empty_irq cfg)

/-- A sequence of calls, first call first. -/
def runOps (cfg : Config) : List Op → LX8266DMXOutput → Option LX8266DMXOutput
  | [], e => some e
  | op :: ops, e => (applyOp cfg op e).bind (runOps cfg ops)

/-- A sequence of calls, first call first: every engine on the way, from the
one the calls start on to the one they end on. -/
def traceOps (cfg : Config) : List Op → LX8266DMXOutput → Option (List LX8266DMXOutput)
  | [], e => some [e]
  | op :: ops, e =>
    (applyOp cfg op e).bind fun e1 => (traceOps cfg ops e1).map fun tr => e :: tr

/-- A sequence of state values with consecutive repetitions collapsed. -/
def collapse : List Nat → List Nat
  | [] => []
  | [a] => [a]
  | a :: b :: t => if a = b then collapse (b :: t) else a :: collapse (b :: t)

/-! ## Closed forms used by the proofs -/

namespace LX8266DMXOutput

/-- The FIFO write of the break: a zero byte at break rate, 8E1. -/
def breakWrite (cfg : Config) : TxWrite :=
  { USD := cfg.ESP8266_CLOCK / DMX_BREAK_BAUD, USC0 := FORMAT_8E1, value := 0 }

/-- A FIFO write at data rate, 8N2. -/
def dataWrite (cfg : Config) (b : Nat) : TxWrite :=
  { USD := cfg.ESP8266_CLOCK / DMX_DATA_BAUD, USC0 := FORMAT_8N2, value := b }

/-- The index of the last slot a frame sends: the slot count, and slot 1 when
the slot count is zero, since the data phase sends a slot before it compares
the cursor with the slot count. -/
def lastSlot (e : LX8266DMXOutput) : Nat := max e._slots 1

/-- The data-rate writes for the buffer indices below `c`. -/
def sentBytes (cfg : Config) (e : LX8266DMXOutput) (c : Nat) : List TxWrite :=
  (List.range c).map (fun i => dataWrite cfg (readSlot e i))

/-- The events of the settle wait after the data, of the break and of the
settle wait after the break. -/
def preambleEvents (cfg : Config) : List Event :=
  List.replicate (DATA_END_WAIT + 1) { state := DMX_STATE_IDLE, writes := [] } ++
    { state := DMX_STATE_BREAK, writes := [breakWrite cfg] } ::
    List.replicate (BREAK_SENT_WAIT + 1) { state := DMX_STATE_BREAK_SENT, writes := [] }

/-- The events of a whole frame of the engine `e`. -/
def frameEvents (cfg : Config) (e : LX8266DMXOutput) : List Event :=
  preambleEvents cfg ++
    { state := DMX_STATE_START, writes := [dataWrite cfg (readSlot e 0)] } ::
    (List.range' 1 (lastSlot e)).map (fun i =>
      { state := DMX_STATE_DATA, writes := [dataWrite cfg (readSlot e i)] })

/-- The engine `e`, found in `DMX_STATE_IDLE`, when the settle wait after the
data is over: `DMX_STATE_BREAK` is next. -/
def atBreak (e : LX8266DMXOutput) : LX8266DMXOutput :=
  { e with _idle_count := DATA_END_WAIT + 1, _dmx_state := DMX_STATE_BREAK }

/-- The engine `e`, found in `DMX_STATE_IDLE`, once the break has gone out and
the settle wait after it is over: `DMX_STATE_START` is next. -/
def atStart (cfg : Config) (e : LX8266DMXOutput) : LX8266DMXOutput :=
  { e with
    hw := { e.hw with
      USD := cfg.ESP8266_CLOCK / DMX_BREAK_BAUD
      USC0 := FORMAT_8E1
      USF := e.hw.USF ++ [breakWrite cfg] }
    _dmx_state := DMX_STATE_START
    _idle_count := BREAK_SENT_WAIT + 1 }

/-- The engine `e`, found in `DMX_STATE_IDLE`, when the break has gone out and
`j` events of the settle wait after it have passed. -/
def atBreakSent (cfg : Config) (e : LX8266DMXOutput) (j : Nat) : LX8266DMXOutput :=
  { atStart cfg e with _dmx_state := DMX_STATE_BREAK_SENT, _idle_count := j }

/-- The engine `e`, found in `DMX_STATE_IDLE`, in the data phase of the frame
with the cursor at `c`: the bytes at the indices below `c` have gone out. -/
def atData (cfg : Config) (e : LX8266DMXOutput) (c : Nat) : LX8266DMXOutput :=
  { e with
    hw := { e.hw with
      USD := cfg.ESP8266_CLOCK / DMX_DATA_BAUD
      USC0 := FORMAT_8N2
      USF := e.hw.USF ++ breakWrite cfg :: sentBytes cfg e c }
    _current_slot := c
    _dmx_state := DMX_STATE_DATA
    _idle_count := BREAK_SENT_WAIT + 1 }

/-- The engine `e`, found in `DMX_STATE_IDLE`, at the end of the frame. -/
def frameEnd (cfg : Config) (e : LX8266DMXOutput) : LX8266DMXOutput :=
  { atData cfg e (lastSlot e + 1) with
    _dmx_state := DMX_STATE_IDLE
    _idle_count := 0 }

/-- The engine `e` with the byte `b` stored at the index `k` of the buffer. -/
def withSlot (e : LX8266DMXOutput) (k b : Nat) : LX8266DMXOutput :=
  { e with _dmxData := e._dmxData.set k b }

/-- The engine `e`, found in `DMX_STATE_IDLE` with the idle counter at zero,
after `i` events of the frame. -/
def frameAt (cfg : Config) (e : LX8266DMXOutput) (i : Nat) : LX8266DMXOutput :=
  if i ≤ DATA_END_WAIT then { e with _idle_count := i }
  else if i = DATA_END_WAIT + 1 then atBreak e
  else if i ≤ DATA_END_WAIT + 2 + BREAK_SENT_WAIT then
    atBreakSent cfg e (i - (DATA_END_WAIT + 2))
  else if i = 98 then atStart cfg e
  else if i ≤ 98 + lastSlot e then atData cfg e (i - 98)
  else frameEnd cfg e

end LX8266DMXOutput

/-! ## A concrete configuration -/

/-- A concrete configuration: 512 slots as in the protocol, a minimum of 24
slots, an 80 MHz peripheral clock and the bit numbers of the ESP8266 UART. -/
def sampleConfig : Config :=
  { DMX_MIN_SLOTS := 24, DMX_MAX_SLOTS := 512, ESP8266_CLOCK := 80000000,
    UIFE := 1, UCTXRST := 18, UCFFT := 0 }

/-- The hardware after reset: registers cleared, FIFO log empty, pins inputs. -/
def sampleHardware : Hardware :=
  { USD := 0, USC0 := 0, USC1 := 0, USIE := 0, USIC := 0, USIS := 0, USF := [],
    intr_attached := false, intr_enabled := false,
    pin_mode := fun _ => PinMode.INPUT, pin_level := fun _ => false }

/-- Storage for an engine before a constructor has run. -/
def sampleRaw : LX8266DMXOutput :=
  { _interrupt_status := 7, _dmx_state := 9, _idle_count := 200, _current_slot := 1000,
    _slots := 0, _dmxData := [], hw := sampleHardware, behind := fun _ => 0xAA }

/-- The engine of the example: slot count 3 and a buffer that starts
0, 10, 20, 30. -/
def exampleEngine : LX8266DMXOutput :=
  let e0 := LX8266DMXOutput.newWithPin sampleConfig sampleRaw 2 3
  ((e0.setSlot 1 10).bind fun e1 =>
    (e1.setSlot 2 20).bind fun e2 => e2.setSlot 3 30).getD e0

/-! ## Single steps of the handler -/

namespace LX8266DMXOutput

theorem irq_idle (cfg : Config) (e : LX8266DMXOutput)
    (hs : e._dmx_state = DMX_STATE_IDLE) :
    _tx_empty_irq cfg e =
      if e._idle_count + 1 > DATA_END_WAIT then
        { e with _idle_count := e._idle_count + 1, _dmx_state := DMX_STATE_BREAK }
      else { e with _idle_count := e._idle_count + 1 } := by
  simp only [_tx_empty_irq, hs, DMX_STATE_IDLE, DMX_STATE_BREAK, DMX_STATE_START,
    DMX_STATE_DATA, DMX_STATE_BREAK_SENT]
  simp

theorem irq_break_sent (cfg : Config) (e : LX8266DMXOutput)
    (hs : e._dmx_state = DMX_STATE_BREAK_SENT) :
    _tx_empty_irq cfg e =
      if e._idle_count + 1 > BREAK_SENT_WAIT then
        { e with _idle_count := e._idle_count + 1, _dmx_state := DMX_STATE_START }
      else { e with _idle_count := e._idle_count + 1 } := by
  simp only [_tx_empty_irq, hs, DMX_STATE_IDLE, DMX_STATE_BREAK, DMX_STATE_START,
    DMX_STATE_DATA, DMX_STATE_BREAK_SENT]
  simp

theorem irq_break (cfg : Config) (e : LX8266DMXOutput)
    (hs : e._dmx_state = DMX_STATE_BREAK) :
    _tx_empty_irq cfg e =
      { e with
        hw := { e.hw with
          USD := cfg.ESP8266_CLOCK / DMX_BREAK_BAUD
          USC0 := FORMAT_8E1
          USF := e.hw.USF ++ [breakWrite cfg] }
        _dmx_state := DMX_STATE_BREAK_SENT
        _idle_count := 0 } := by
  simp [_tx_empty_irq, hs, uart_set_baudrate, uart_set_config, USF_write, breakWrite,
    FORMAT_8E1]

theorem irq_start (cfg : Config) (e : LX8266DMXOutput)
    (hs : e._dmx_state = DMX_STATE_START) :
    _tx_empty_irq cfg e =
      { e with
        hw := { e.hw with
          USD := cfg.ESP8266_CLOCK / DMX_DATA_BAUD
          USC0 := FORMAT_8N2
          USF := e.hw.USF ++ [dataWrite cfg (readSlot e 0)] }
        _current_slot := 1
        _dmx_state := DMX_STATE_DATA } := by
  simp [_tx_empty_irq, hs, uart_set_baudrate, uart_set_config, USF_write, dataWrite,
    FORMAT_8N2, DMX_STATE_START, DMX_STATE_BREAK]

theorem irq_data (cfg : Config) (e : LX8266DMXOutput)
    (hs : e._dmx_state = DMX_STATE_DATA) :
    _tx_empty_irq cfg e =
      if e._current_slot + 1 > e._slots then
        { e with
          hw := USF_write (readSlot e e._current_slot) e.hw
          _current_slot := e._current_slot + 1
          _dmx_state := DMX_STATE_IDLE
          _idle_count := 0 }
      else { e with
        hw := USF_write (readSlot e e._current_slot) e.hw
        _current_slot := e._current_slot + 1 } := by
  simp only [_tx_empty_irq, hs, DMX_STATE_IDLE, DMX_STATE_BREAK, DMX_STATE_START,
    DMX_STATE_DATA, DMX_STATE_BREAK_SENT]
  simp

/-! ## Runs of the handler -/

theorem run_append (cfg : Config) (m n : Nat) :
    ∀ e : LX8266DMXOutput, run cfg (m + n) e =
      ((run cfg m e).1 ++ (run cfg n (run cfg m e).2).1, (run cfg n (run cfg m e).2).2) := by
  induction m with
  | zero => intro e; simp [run]
  | succ m ih =>
    intro e
    rw [Nat.add_right_comm]
    simp only [run, ih, List.cons_append]

theorem run_trans (cfg : Config) (m n : Nat) (e e1 e2 : LX8266DMXOutput)
    (l1 l2 : List Event) (h1 : run cfg m e = (l1, e1)) (h2 : run cfg n e1 = (l2, e2)) :
    run cfg (m + n) e = (l1 ++ l2, e2) := by
  rw [run_append, h1, h2]

theorem run_one (cfg : Config) (e : LX8266DMXOutput) :
    run cfg 1 e = ([eventOf e (_tx_empty_irq cfg e)], _tx_empty_irq cfg e) := rfl

theorem irqs_eq_run (cfg : Config) (n : Nat) :
    ∀ e : LX8266DMXOutput, irqs cfg n e = (run cfg n e).2 := by
  induction n with
  | zero => intro e; rfl
  | succ n ih => intro e; simp only [irqs, run, ih]

theorem irqs_of_run (cfg : Config) (n : Nat) (e ef : LX8266DMXOutput) (l : List Event)
    (h : run cfg n e = (l, ef)) : irqs cfg n e = ef := by
  rw [irqs_eq_run, h]

theorem irqs_add (cfg : Config) (m n : Nat) :
    ∀ e : LX8266DMXOutput, irqs cfg (m + n) e = irqs cfg n (irqs cfg m e) := by
  induction m with
  | zero => intro e; simp [irqs]
  | succ m ih =>
    intro e
    rw [Nat.add_right_comm]
    simp only [irqs, ih]

theorem run_idle_wait (cfg : Config) (j : Nat) :
    ∀ e : LX8266DMXOutput, e._dmx_state = DMX_STATE_IDLE →
      e._idle_count + j ≤ DATA_END_WAIT →
      run cfg j e = (List.replicate j { state := DMX_STATE_IDLE, writes := [] },
        { e with _idle_count := e._idle_count + j }) := by
  induction j with
  | zero => intro e _ _; rfl
  | succ j ih =>
    intro e hs hc
    have hstep : _tx_empty_irq cfg e = { e with _idle_count := e._idle_count + 1 } := by
      rw [irq_idle cfg e hs, if_neg (by omega)]
    have h1 : run cfg 1 e = ([{ state := DMX_STATE_IDLE, writes := [] }],
        { e with _idle_count := e._idle_count + 1 }) := by
      rw [run_one, hstep]; simp [eventOf, hs]
    have h2 := ih { e with _idle_count := e._idle_count + 1 } hs
      (by show e._idle_count + 1 + j ≤ DATA_END_WAIT; omega)
    have h3 := run_trans cfg 1 j _ _ _ _ _ h1 h2
    rw [Nat.add_comm 1 j] at h3
    rw [h3]
    simp [List.replicate_succ, Nat.add_assoc, Nat.add_comm 1 j]

theorem run_break_sent_wait (cfg : Config) (j : Nat) :
    ∀ e : LX8266DMXOutput, e._dmx_state = DMX_STATE_BREAK_SENT →
      e._idle_count + j ≤ BREAK_SENT_WAIT →
      run cfg j e = (List.replicate j { state := DMX_STATE_BREAK_SENT, writes := [] },
        { e with _idle_count := e._idle_count + j }) := by
  induction j with
  | zero => intro e _ _; rfl
  | succ j ih =>
    intro e hs hc
    have hstep : _tx_empty_irq cfg e = { e with _idle_count := e._idle_count + 1 } := by
      rw [irq_break_sent cfg e hs, if_neg (by omega)]
    have h1 : run cfg 1 e = ([{ state := DMX_STATE_BREAK_SENT, writes := [] }],
        { e with _idle_count := e._idle_count + 1 }) := by
      rw [run_one, hstep]; simp [eventOf, hs]
    have h2 := ih { e with _idle_count := e._idle_count + 1 } hs
      (by show e._idle_count + 1 + j ≤ BREAK_SENT_WAIT; omega)
    have h3 := run_trans cfg 1 j _ _ _ _ _ h1 h2
    rw [Nat.add_comm 1 j] at h3
    rw [h3]
    simp [List.replicate_succ, Nat.add_assoc, Nat.add_comm 1 j]

/-- The data phase while slots remain: `j` events send the bytes at the next
`j` indices. -/
theorem run_data (cfg : Config) (j : Nat) :
    ∀ e : LX8266DMXOutput, e._dmx_state = DMX_STATE_DATA →
      (j = 0 ∨ e._current_slot + j ≤ e._slots) →
      run cfg j e =
        ((List.range' e._current_slot j).map (fun i =>
            { state := DMX_STATE_DATA
              writes := [{ USD := e.hw.USD, USC0 := e.hw.USC0, value := readSlot e i }] }),
          { e with
            _current_slot := e._current_slot + j
            hw := { e.hw with
              USF := e.hw.USF ++ (List.range' e._current_slot j).map (fun i =>
                { USD := e.hw.USD, USC0 := e.hw.USC0, value := readSlot e i }) } }) := by
  induction j with
  | zero => intro e _ _; simp [run]
  | succ j ih =>
    intro e hs hc
    have hc1 : e._current_slot + (j + 1) ≤ e._slots := by
      rcases hc with h | h
      · omega
      · exact h
    have hstep : _tx_empty_irq cfg e = { e with
        hw := USF_write (readSlot e e._current_slot) e.hw
        _current_slot := e._current_slot + 1 } := by
      rw [irq_data cfg e hs, if_neg (by omega)]
    have h1 : run cfg 1 e =
        ([⟨DMX_STATE_DATA, [⟨e.hw.USD, e.hw.USC0, readSlot e e._current_slot⟩]⟩],
        { e with
          hw := USF_write (readSlot e e._current_slot) e.hw
          _current_slot := e._current_slot + 1 }) := by
      rw [run_one, hstep]; simp [eventOf, hs, USF_write]
    have h2 := ih { e with
        hw := USF_write (readSlot e e._current_slot) e.hw
        _current_slot := e._current_slot + 1 } hs
      (Or.inr (by show e._current_slot + 1 + j ≤ e._slots; omega))
    have h3 := run_trans cfg 1 j _ _ _ _ _ h1 h2
    rw [Nat.add_comm 1 j] at h3
    rw [h3, List.range'_succ]
    simp [USF_write, readSlot, Nat.add_assoc, Nat.add_comm 1 j]

theorem run_data_end (cfg : Config) (e : LX8266DMXOutput)
    (hs : e._dmx_state = DMX_STATE_DATA) (hc : e._slots ≤ e._current_slot) :
    run cfg 1 e =
      ([{ state := DMX_STATE_DATA
          writes := [⟨e.hw.USD, e.hw.USC0, readSlot e e._current_slot⟩] }],
        { e with
          hw := USF_write (readSlot e e._current_slot) e.hw
          _current_slot := e._current_slot + 1
          _dmx_state := DMX_STATE_IDLE
          _idle_count := 0 }) := by
  rw [run_one, irq_data cfg e hs, if_pos (by omega)]
  simp [eventOf, hs, USF_write]

/-! ## One frame in closed form -/

theorem sentBytes_add (cfg : Config) (e : LX8266DMXOutput) (c j : Nat) :
    sentBytes cfg e (c + j) =
      sentBytes cfg e c ++ (List.range' c j).map (fun i => dataWrite cfg (readSlot e i)) := by
  unfold sentBytes
  rw [List.range_eq_range', List.range_eq_range', ← List.map_append]
  congr 1
  have h := List.range'_append_1 0 c j
  rw [Nat.zero_add] at h
  rw [h, Nat.add_comm]

theorem sentBytes_succ (cfg : Config) (e : LX8266DMXOutput) (c : Nat) :
    sentBytes cfg e (c + 1) = sentBytes cfg e c ++ [dataWrite cfg (readSlot e c)] := by
  rw [sentBytes_add]; rfl

theorem run_idle_phase (cfg : Config) (e : LX8266DMXOutput)
    (hs : e._dmx_state = DMX_STATE_IDLE) (hi : e._idle_count = 0) :
    run cfg (DATA_END_WAIT + 1) e =
      (List.replicate (DATA_END_WAIT + 1) { state := DMX_STATE_IDLE, writes := [] },
        atBreak e) := by
  have p1 := run_idle_wait cfg DATA_END_WAIT e hs (by omega)
  have p2 : run cfg 1 { e with _idle_count := e._idle_count + DATA_END_WAIT } =
      ([{ state := DMX_STATE_IDLE, writes := [] }], atBreak e) := by
    rw [run_one, irq_idle cfg { e with _idle_count := e._idle_count + DATA_END_WAIT } hs]
    simp [hi, eventOf, hs, atBreak]
  rw [run_trans cfg _ _ _ _ _ _ _ p1 p2]
  simp [List.replicate_succ' DATA_END_WAIT]

theorem run_break_step (cfg : Config) (e : LX8266DMXOutput) :
    run cfg 1 (atBreak e) =
      ([{ state := DMX_STATE_BREAK, writes := [breakWrite cfg] }], atBreakSent cfg e 0) := by
  rw [run_one, irq_break cfg (atBreak e) rfl]
  simp [eventOf, atBreak, atBreakSent, atStart]

theorem run_break_sent_steps (cfg : Config) (e : LX8266DMXOutput) (j : Nat)
    (hj : j ≤ BREAK_SENT_WAIT) :
    run cfg j (atBreakSent cfg e 0) =
      (List.replicate j { state := DMX_STATE_BREAK_SENT, writes := [] },
        atBreakSent cfg e j) := by
  rw [run_break_sent_wait cfg j (atBreakSent cfg e 0) rfl
    (by show 0 + j ≤ BREAK_SENT_WAIT; omega)]
  simp [atBreakSent]

theorem run_break_sent_last (cfg : Config) (e : LX8266DMXOutput) :
    run cfg 1 (atBreakSent cfg e BREAK_SENT_WAIT) =
      ([{ state := DMX_STATE_BREAK_SENT, writes := [] }], atStart cfg e) := by
  rw [run_one, irq_break_sent cfg (atBreakSent cfg e BREAK_SENT_WAIT) rfl]
  simp [eventOf, atStart, atBreakSent]

theorem run_preamble (cfg : Config) (e : LX8266DMXOutput)
    (hs : e._dmx_state = DMX_STATE_IDLE) (hi : e._idle_count = 0) :
    run cfg (DATA_END_WAIT + 1 + 1 + (BREAK_SENT_WAIT + 1)) e =
      (preambleEvents cfg, atStart cfg e) := by
  have q1 := run_trans cfg _ _ _ _ _ _ _ (run_idle_phase cfg e hs hi) (run_break_step cfg e)
  have q2 := run_trans cfg _ _ _ _ _ _ _ q1
    (run_break_sent_steps cfg e BREAK_SENT_WAIT (le_refl _))
  have q3 := run_trans cfg _ _ _ _ _ _ _ q2 (run_break_sent_last cfg e)
  rw [show DATA_END_WAIT + 1 + 1 + (BREAK_SENT_WAIT + 1) =
    DATA_END_WAIT + 1 + 1 + BREAK_SENT_WAIT + 1 from rfl, q3]
  simp [preambleEvents, List.replicate_succ' BREAK_SENT_WAIT]

theorem run_start_step (cfg : Config) (e : LX8266DMXOutput) :
    run cfg 1 (atStart cfg e) =
      ([{ state := DMX_STATE_START, writes := [dataWrite cfg (readSlot e 0)] }],
        atData cfg e 1) := by
  rw [run_one, irq_start cfg (atStart cfg e) rfl]
  have h1 : readSlot (atStart cfg e) 0 = readSlot e 0 := rfl
  have h2 : sentBytes cfg e 1 = [dataWrite cfg (readSlot e 0)] := rfl
  rw [h1]
  simp [eventOf, atStart, atData, h2]

theorem run_data_steps (cfg : Config) (e : LX8266DMXOutput) (c j : Nat)
    (hc : j = 0 ∨ c + j ≤ e._slots) :
    run cfg j (atData cfg e c) =
      ((List.range' c j).map (fun i =>
          { state := DMX_STATE_DATA, writes := [dataWrite cfg (readSlot e i)] }),
        atData cfg e (c + j)) := by
  rw [run_data cfg j (atData cfg e c) rfl hc]
  simp only [atData, sentBytes_add, List.append_assoc, List.cons_append]
  rfl

theorem run_data_last (cfg : Config) (e : LX8266DMXOutput) (c : Nat)
    (hc : e._slots ≤ c) :
    run cfg 1 (atData cfg e c) =
      ([{ state := DMX_STATE_DATA, writes := [dataWrite cfg (readSlot e c)] }],
        { atData cfg e (c + 1) with _dmx_state := DMX_STATE_IDLE, _idle_count := 0 }) := by
  rw [run_data_end cfg (atData cfg e c) rfl hc]
  simp only [atData, USF_write, sentBytes_succ, List.append_assoc, List.cons_append]
  rfl

theorem run_to_data (cfg : Config) (e : LX8266DMXOutput) (c : Nat)
    (hs : e._dmx_state = DMX_STATE_IDLE) (hi : e._idle_count = 0)
    (hc1 : 1 ≤ c) (hc : c ≤ lastSlot e) :
    run cfg (98 + c) e =
      (preambleEvents cfg ++
        { state := DMX_STATE_START, writes := [dataWrite cfg (readSlot e 0)] } ::
        (List.range' 1 (c - 1)).map (fun i =>
          { state := DMX_STATE_DATA, writes := [dataWrite cfg (readSlot e i)] }),
        atData cfg e c) := by
  have hls : lastSlot e = max e._slots 1 := rfl
  have p1 := run_preamble cfg e hs hi
  have p2 := run_start_step cfg e
  have p3 := run_data_steps cfg e 1 (c - 1) (by omega)
  have q1 := run_trans cfg _ _ _ _ _ _ _ p1 p2
  have q2 := run_trans cfg _ _ _ _ _ _ _ q1 p3
  have hk : DATA_END_WAIT + 1 + 1 + (BREAK_SENT_WAIT + 1) + 1 + (c - 1) = 98 + c := by
    simp only [DATA_END_WAIT, BREAK_SENT_WAIT]; omega
  have hc2 : 1 + (c - 1) = c := by omega
  rw [hk, hc2] at q2
  rw [q2]
  simp only [List.append_assoc, List.singleton_append]

theorem run_frame (cfg : Config) (e : LX8266DMXOutput)
    (hs : e._dmx_state = DMX_STATE_IDLE) (hi : e._idle_count = 0) :
    run cfg (lastSlot e + 99) e = (frameEvents cfg e, frameEnd cfg e) := by
  have hls : lastSlot e = max e._slots 1 := rfl
  have p1 := run_to_data cfg e (lastSlot e) hs hi (by omega) (le_refl _)
  have p2 := run_data_last cfg e (lastSlot e) (by omega)
  have q := run_trans cfg _ _ _ _ _ _ _ p1 p2
  rw [show 98 + lastSlot e + 1 = lastSlot e + 99 by omega] at q
  rw [q, frameEvents, frameEnd]
  have hr : List.range' 1 (lastSlot e) = List.range' 1 (lastSlot e - 1) ++ [lastSlot e] := by
    have h := List.range'_1_concat 1 (lastSlot e - 1)
    rw [show lastSlot e - 1 + 1 = lastSlot e by omega,
      show 1 + (lastSlot e - 1) = lastSlot e by omega] at h
    exact h
  rw [hr]
  simp only [List.append_assoc, List.cons_append, List.map_append, List.map_cons,
    List.map_nil]

/-- From any point of the data phase to the end of the frame: the handler
sends the bytes from the cursor up to the slot count, and in any case the byte
under the cursor. -/
theorem run_data_to_end (cfg : Config) (e : LX8266DMXOutput)
    (hs : e._dmx_state = DMX_STATE_DATA) :
    run cfg (max e._slots e._current_slot + 1 - e._current_slot) e =
      ((List.range' e._current_slot
            (max e._slots e._current_slot + 1 - e._current_slot)).map (fun i =>
          { state := DMX_STATE_DATA
            writes := [{ USD := e.hw.USD, USC0 := e.hw.USC0, value := readSlot e i }] }),
        { e with
          _current_slot := max e._slots e._current_slot + 1
          _dmx_state := DMX_STATE_IDLE
          _idle_count := 0
          hw := { e.hw with
            USF := e.hw.USF ++ (List.range' e._current_slot
              (max e._slots e._current_slot + 1 - e._current_slot)).map (fun i =>
                { USD := e.hw.USD, USC0 := e.hw.USC0, value := readSlot e i }) } }) := by
  have hm1 : e._slots ≤ max e._slots e._current_slot := le_max_left _ _
  have hm2 : e._current_slot ≤ max e._slots e._current_slot := le_max_right _ _
  have hm3 : max e._slots e._current_slot - e._current_slot = 0 ∨
      max e._slots e._current_slot ≤ e._slots := by
    rcases le_total e._slots e._current_slot with h | h
    · left; rw [max_eq_right h]; omega
    · right; rw [max_eq_left h]
  generalize max e._slots e._current_slot = m at hm1 hm2 hm3 ⊢
  have hj : e._current_slot + (m - e._current_slot) = m := by omega
  have p1 := run_data cfg (m - e._current_slot) e hs (by omega)
  have p2 := run_data_end cfg { e with
      _current_slot := e._current_slot + (m - e._current_slot)
      hw := { e.hw with
        USF := e.hw.USF ++ (List.range' e._current_slot (m - e._current_slot)).map (fun i =>
            { USD := e.hw.USD, USC0 := e.hw.USC0, value := readSlot e i }) } } hs
    (by show e._slots ≤ e._current_slot + (m - e._current_slot); omega)
  have q := run_trans cfg _ _ _ _ _ _ _ p1 p2
  have hk : m - e._current_slot + 1 = m + 1 - e._current_slot := by omega
  have ht : List.range' e._current_slot (m + 1 - e._current_slot) =
      List.range' e._current_slot (m - e._current_slot) ++ [m] := by
    rw [← hk, List.range'_1_concat, hj]
  rw [hk] at q
  rw [q, ht]
  simp only [hj, USF_write, List.map_append, List.map_cons, List.map_nil, List.append_assoc]
  rfl

theorem irqs_frameAt (cfg : Config) (e : LX8266DMXOutput) (i : Nat)
    (hs : e._dmx_state = DMX_STATE_IDLE) (hi : e._idle_count = 0)
    (hk : i ≤ lastSlot e + 99) :
    irqs cfg i e = frameAt cfg e i := by
  have hls : lastSlot e = max e._slots 1 := rfl
  unfold frameAt
  split
  · rename_i h
    have p := run_idle_wait cfg i e hs (by omega)
    rw [irqs_of_run cfg _ _ _ _ p]
    simp [hi]
  split
  · rename_i h1 h
    subst h
    exact irqs_of_run cfg _ _ _ _ (run_idle_phase cfg e hs hi)
  split
  · rename_i h1 h2 h
    simp only [DATA_END_WAIT, BREAK_SENT_WAIT] at h1 h2 h
    have q1 := run_trans cfg _ _ _ _ _ _ _ (run_idle_phase cfg e hs hi) (run_break_step cfg e)
    have q2 := run_trans cfg _ _ _ _ _ _ _ q1
      (run_break_sent_steps cfg e (i - (DATA_END_WAIT + 2))
        (by simp only [DATA_END_WAIT, BREAK_SENT_WAIT]; omega))
    have hh : DATA_END_WAIT + 1 + 1 + (i - (DATA_END_WAIT + 2)) = i := by
      simp only [DATA_END_WAIT]; omega
    rw [hh] at q2
    exact irqs_of_run cfg _ _ _ _ q2
  split
  · rename_i h1 h2 h3 h
    subst h
    exact irqs_of_run cfg _ _ _ _ (run_preamble cfg e hs hi)
  split
  · rename_i h1 h2 h3 h4 h
    simp only [DATA_END_WAIT, BREAK_SENT_WAIT] at h1 h2 h3
    have q := run_to_data cfg e (i - 98) hs hi (by omega) (by omega)
    have hh : 98 + (i - 98) = i := by omega
    rw [hh] at q
    exact irqs_of_run cfg _ _ _ _ q
  · rename_i h1 h2 h3 h4 h
    have hh : i = lastSlot e + 99 := by omega
    subst hh
    exact irqs_of_run cfg _ _ _ _ (run_frame cfg e hs hi)

theorem frameAt_end (cfg : Config) (s : LX8266DMXOutput) :
    frameAt cfg s (lastSlot s + 99) = frameEnd cfg s := by
  unfold frameAt
  simp only [DATA_END_WAIT, BREAK_SENT_WAIT]
  split_ifs <;> first | rfl | omega

theorem frameAt_facts (cfg : Config) (s : LX8266DMXOutput) (i : Nat)
    (hs : s._dmx_state = DMX_STATE_IDLE) (hi : i ≤ lastSlot s + 99) :
    (frameAt cfg s i)._slots = s._slots ∧
    (frameAt cfg s i)._dmxData = s._dmxData ∧
    ((frameAt cfg s i)._dmx_state = DMX_STATE_IDLE ↔
      i ≤ DATA_END_WAIT ∨ i = lastSlot s + 99) ∧
    ((frameAt cfg s i)._dmx_state = DMX_STATE_BREAK ↔ i = DATA_END_WAIT + 1) ∧
    ((frameAt cfg s i)._dmx_state = DMX_STATE_BREAK_SENT ↔
      DATA_END_WAIT + 2 ≤ i ∧ i ≤ DATA_END_WAIT + 2 + BREAK_SENT_WAIT) ∧
    ((frameAt cfg s i)._dmx_state = DMX_STATE_START ↔ i = 98) ∧
    ((frameAt cfg s i)._dmx_state = DMX_STATE_DATA ↔ 99 ≤ i ∧ i < lastSlot s + 99) ∧
    (99 ≤ i → (frameAt cfg s i)._current_slot = i - 98) := by
  unfold frameAt
  simp only [DATA_END_WAIT, BREAK_SENT_WAIT] at *
  split_ifs <;>
    simp [atBreak, atBreakSent, atStart, atData, frameEnd, hs, DMX_STATE_IDLE,
      DMX_STATE_BREAK, DMX_STATE_BREAK_SENT, DMX_STATE_START, DMX_STATE_DATA,
      DATA_END_WAIT, BREAK_SENT_WAIT] <;> omega

theorem frameEnd_USF (cfg : Config) (s : LX8266DMXOutput) :
    (frameEnd cfg s).hw.USF = s.hw.USF ++ breakWrite cfg :: sentBytes cfg s (lastSlot s + 1) :=
  rfl

/-- The rest of a frame, from any point of it. -/
theorem irqs_rest_of_frame (cfg : Config) (s : LX8266DMXOutput) (j : Nat)
    (hs : s._dmx_state = DMX_STATE_IDLE) (hi : s._idle_count = 0)
    (hj : j ≤ lastSlot s + 99) :
    irqs cfg (lastSlot s + 99 - j) (frameAt cfg s j) = frameEnd cfg s := by
  have h1 := irqs_add cfg j (lastSlot s + 99 - j) s
  rw [show j + (lastSlot s + 99 - j) = lastSlot s + 99 by omega,
    irqs_frameAt cfg s _ hs hi (le_refl _), irqs_frameAt cfg s j hs hi hj,
    frameAt_end] at h1
  exact h1.symm

/-! ## The events of a frame -/

theorem frameEvents_filter_start (cfg : Config) (e : LX8266DMXOutput) :
    (frameEvents cfg e).filter (fun ev => ev.state = DMX_STATE_START) =
      [{ state := DMX_STATE_START, writes := [dataWrite cfg (readSlot e 0)] }] := by
  unfold frameEvents
  generalize List.range' 1 (lastSlot e) = l
  simp [preambleEvents, List.filter_map, DMX_STATE_IDLE, DMX_STATE_BREAK,
    DMX_STATE_BREAK_SENT, DMX_STATE_START, DMX_STATE_DATA, Function.comp_def]

theorem frameEvents_filter_data (cfg : Config) (e : LX8266DMXOutput) :
    (frameEvents cfg e).filter (fun ev => ev.state = DMX_STATE_DATA) =
      (List.range' 1 (lastSlot e)).map (fun i =>
        { state := DMX_STATE_DATA, writes := [dataWrite cfg (readSlot e i)] }) := by
  unfold frameEvents
  generalize List.range' 1 (lastSlot e) = l
  simp [preambleEvents, List.filter_map, DMX_STATE_IDLE, DMX_STATE_BREAK,
    DMX_STATE_BREAK_SENT, DMX_STATE_START, DMX_STATE_DATA, Function.comp_def]

theorem frameEvents_states (cfg : Config) (e : LX8266DMXOutput) :
    (frameEvents cfg e).map (fun ev => ev.state) =
      List.replicate (DATA_END_WAIT + 1) DMX_STATE_IDLE ++ [DMX_STATE_BREAK] ++
        List.replicate (BREAK_SENT_WAIT + 1) DMX_STATE_BREAK_SENT ++ [DMX_STATE_START] ++
        List.replicate (lastSlot e) DMX_STATE_DATA := by
  simp only [frameEvents, preambleEvents, List.map_append, List.map_cons, List.map_replicate,
    List.map_map, Function.comp_def, List.map_const', List.length_range']
  simp

/-! ## Reads and stores of slots -/

theorem readSlot_of_lt (e : LX8266DMXOutput) (i : Nat) (h : i < e._dmxData.length) :
    e._dmxData[i]? = some (readSlot e i) := by
  simp [readSlot, List.getElem?_eq_getElem h]

theorem readSlot_withSlot_self (e : LX8266DMXOutput) (k b : Nat)
    (h : k < e._dmxData.length) : readSlot (withSlot e k b) k = b := by
  simp [readSlot, withSlot, List.getElem?_set_self h]

theorem readSlot_withSlot_ne (e : LX8266DMXOutput) (k b i : Nat) (h : i ≠ k) :
    readSlot (withSlot e k b) i = readSlot e i := by
  have h1 : (e._dmxData.set k b)[i]? = e._dmxData[i]? := List.getElem?_set_ne (Ne.symm h)
  simp only [readSlot, withSlot, h1]

theorem sentBytes_withSlot (cfg : Config) (e : LX8266DMXOutput) (k b c : Nat) (h : c ≤ k) :
    sentBytes cfg (withSlot e k b) c = sentBytes cfg e c := by
  unfold sentBytes
  apply List.map_congr_left
  intro i hi
  rw [readSlot_withSlot_ne e k b i (by have := List.mem_range.mp hi; omega)]

theorem sentBytes_getElem? (cfg : Config) (e : LX8266DMXOutput) (c k : Nat) (h : k < c) :
    (sentBytes cfg e c)[k]? = some (dataWrite cfg (readSlot e k)) := by
  simp [sentBytes, List.getElem?_map, List.getElem?_range h]

theorem setSlot_eq (e : LX8266DMXOutput) (k v : Nat) (hk : k < e._dmxData.length)
    (hv : v < 256) : setSlot e (k : Int) v = some (withSlot e k v) := by
  have hv8 : v % 256 = v := Nat.mod_eq_of_lt hv
  simp [setSlot, withSlot, hk, hv8]

/-- A store to the index `k` made before the byte at `k` has gone out amounts
to a store made before the frame began. -/
theorem frameAt_withSlot (cfg : Config) (s : LX8266DMXOutput) (k b j : Nat)
    (hj : j ≤ 98 + k) (hk : k ≤ lastSlot s) :
    withSlot (frameAt cfg s j) k b = frameAt cfg (withSlot s k b) j := by
  unfold frameAt
  have hsl : lastSlot (withSlot s k b) = lastSlot s := rfl
  rw [hsl]
  split_ifs with h1 h2 h3 h4 h5
  · rfl
  · rfl
  · rfl
  · rfl
  · have hsb := sentBytes_withSlot cfg s k b (j - 98) (by omega)
    simp only [withSlot, atData] at hsb ⊢
    rw [hsb]
  · omega

/-- The bytes the handler reads at the indices inside the buffer are the
buffer entries. -/
theorem sentBytes_eq_take (cfg : Config) (e : LX8266DMXOutput) (c : Nat)
    (h : c ≤ e._dmxData.length) :
    sentBytes cfg e c = (e._dmxData.take c).map (dataWrite cfg) := by
  apply List.ext_getElem?
  intro i
  by_cases hi : i < c
  · rw [sentBytes_getElem? cfg e c i hi, List.getElem?_map, List.getElem?_take, if_pos hi,
      readSlot_of_lt e i (by omega)]
    rfl
  · rw [List.getElem?_eq_none (by simp [sentBytes]; omega),
      List.getElem?_eq_none (by simp [List.length_take]; omega)]

theorem sentBytes_store (cfg : Config) (e : LX8266DMXOutput) (k v c : Nat)
    (hkl : k < e._dmxData.length) :
    sentBytes cfg (withSlot e k v) c =
      (List.range c).map (fun i => dataWrite cfg (if i = k then v else readSlot e i)) := by
  unfold sentBytes
  apply List.map_congr_left
  intro i _
  by_cases h : i = k
  · subst h
    rw [readSlot_withSlot_self e i v hkl, if_pos rfl]
  · rw [readSlot_withSlot_ne e k v i h, if_neg h]

/-- A store to an index the cursor has passed: the rest of the frame goes out
as it would have without the store. -/
theorem run_data_after_store (cfg : Config) (s : LX8266DMXOutput) (c k v : Nat)
    (hc1 : k < c) (hc : c ≤ lastSlot s) :
    irqs cfg (lastSlot s + 1 - c) (withSlot (atData cfg s c) k v) =
      withSlot (frameEnd cfg s) k v := by
  have hls : lastSlot s = max s._slots 1 := rfl
  have hmax : max (withSlot (atData cfg s c) k v)._slots
      (withSlot (atData cfg s c) k v)._current_slot = lastSlot s := by
    show max s._slots c = lastSlot s
    rw [hls]
    rcases le_total s._slots 1 with h | h
    · rw [max_eq_right h] at hls ⊢
      rw [hls] at hc
      exact max_eq_right (by omega) |>.trans (by omega)
    · rw [max_eq_left h] at hls ⊢
      rw [hls] at hc
      exact max_eq_left hc
  have h := run_data_to_end cfg (withSlot (atData cfg s c) k v) rfl
  rw [hmax] at h
  refine (irqs_of_run cfg _ _ _ _ h).trans ?_
  have hmap : (List.range' c (lastSlot s + 1 - c)).map (fun i =>
      ({ USD := cfg.ESP8266_CLOCK / DMX_DATA_BAUD, USC0 := FORMAT_8N2,
         value := readSlot (withSlot (atData cfg s c) k v) i } : TxWrite)) =
      (List.range' c (lastSlot s + 1 - c)).map (fun i => dataWrite cfg (readSlot s i)) := by
    apply List.map_congr_left
    intro i hi
    have hci : c ≤ i := (List.mem_range'_1.mp hi).1
    have hr : readSlot (withSlot (atData cfg s c) k v) i = readSlot s i :=
      readSlot_withSlot_ne (atData cfg s c) k v i (by omega)
    rw [hr]
    rfl
  have hsb : sentBytes cfg s (lastSlot s + 1) =
      sentBytes cfg s c ++
        (List.range' c (lastSlot s + 1 - c)).map (fun i => dataWrite cfg (readSlot s i)) := by
    rw [← sentBytes_add]
    congr 1
    omega
  show ({ withSlot (atData cfg s c) k v with
      _current_slot := lastSlot s + 1
      _dmx_state := DMX_STATE_IDLE
      _idle_count := 0
      hw := { (withSlot (atData cfg s c) k v).hw with
        USF := (withSlot (atData cfg s c) k v).hw.USF ++
          (List.range' c (lastSlot s + 1 - c)).map (fun i =>
            ({ USD := cfg.ESP8266_CLOCK / DMX_DATA_BAUD, USC0 := FORMAT_8N2,
               value := readSlot (withSlot (atData cfg s c) k v) i } : TxWrite)) } } :
      LX8266DMXOutput) = _
  rw [hmap]
  simp only [withSlot, atData, frameEnd, hsb, List.append_assoc, List.cons_append]

theorem start_eq (cfg : Config) (e : LX8266DMXOutput)
    (hoff : e._interrupt_status ≠ ISR_ENABLED) :
    start cfg e =
      { e with
        _interrupt_status := ISR_ENABLED
        _dmx_state := DMX_STATE_IDLE
        _idle_count := 0
        hw := uart_init_tx cfg DMX_DATA_BAUD FORMAT_8N2 e.hw } := by
  simp [start, hoff]

end LX8266DMXOutput

/-! ## What the calls leave alone -/

/-- The handler leaves the slot count, the buffer and the lifecycle flag
alone. -/
theorem irq_keeps (cfg : Config) (e : LX8266DMXOutput) :
    (LX8266DMXOutput._tx_empty_irq cfg e)._slots = e._slots ∧
      (LX8266DMXOutput._tx_empty_irq cfg e)._dmxData = e._dmxData ∧
      (LX8266DMXOutput._tx_empty_irq cfg e)._interrupt_status = e._interrupt_status := by
  unfold LX8266DMXOutput._tx_empty_irq
  simp only []
  repeat' split
  all_goals exact ⟨rfl, rfl, rfl⟩

/-- The slot count `setMaxSlots` stores: the low 16 bits of
`max(count, DMX_MIN_SLOTS)`. -/
theorem slots_after_setMaxSlots (cfg : Config) (e : LX8266DMXOutput) (count : Int) :
    ((LX8266DMXOutput.setMaxSlots cfg e count)._slots : Int) =
      max count (cfg.DMX_MIN_SLOTS : Int) % 2 ^ 16 := by
  have h0 : (0 : Int) ≤ max count (cfg.DMX_MIN_SLOTS : Int) :=
    le_trans (Int.ofNat_nonneg _) (le_max_right _ _)
  show (((max count (cfg.DMX_MIN_SLOTS : Int)).toNat % 2 ^ 16 : Nat) : Int) = _
  rw [Int.natCast_mod, Int.toNat_of_nonneg h0]
  norm_num

/-- A value that fits the 16 bits of `_slots` is stored as it is. -/
theorem slots_after_setMaxSlots_of_lt (cfg : Config) (e : LX8266DMXOutput) (count : Int)
    (h : max count (cfg.DMX_MIN_SLOTS : Int) < 2 ^ 16) :
    ((LX8266DMXOutput.setMaxSlots cfg e count)._slots : Int) =
      max count (cfg.DMX_MIN_SLOTS : Int) := by
  have h0 : (0 : Int) ≤ max count (cfg.DMX_MIN_SLOTS : Int) :=
    le_trans (Int.ofNat_nonneg _) (le_max_right _ _)
  rw [slots_after_setMaxSlots, Int.emod_eq_of_lt h0 h]

theorem applyOp_slots (cfg : Config) (op : Op) (e e1 : LX8266DMXOutput)
    (h : applyOp cfg op e = some e1) :
    (∃ n, op = Op.setMaxSlots n ∧
        e1._slots = (max n (cfg.DMX_MIN_SLOTS : Int)).toNat % 2 ^ 16) ∨
      ((∀ n, op ≠ Op.setMaxSlots n) ∧ e1._slots = e._slots) := by
  cases op with
  | setMaxSlots n =>
    left
    simp only [applyOp, Option.some.injEq] at h
    exact ⟨n, rfl, by rw [← h]; rfl⟩
  | setSlot k v =>
    right
    simp only [applyOp, LX8266DMXOutput.setSlot] at h
    split_ifs at h
    cases h
    exact ⟨fun n hn => (by cases hn), rfl⟩
  | start =>
    right
    simp only [applyOp, Option.some.injEq] at h
    refine ⟨fun n hn => (by cases hn), ?_⟩
    rw [← h]
    unfold LX8266DMXOutput.start
    split <;> rfl
  | stop =>
    right
    simp only [applyOp, Option.some.injEq] at h
    exact ⟨fun n hn => (by cases hn), by rw [← h]; rfl⟩
  | tx_empty_irq =>
    right
    simp only [applyOp, Option.some.injEq] at h
    exact ⟨fun n hn => (by cases hn), by rw [← h]; exact (irq_keeps cfg e).1⟩

/-- Along a sequence of calls the slot count stays at or above the minimum as
long as every count given to `setMaxSlots` fits 16 bits, and at or below the
capacity as long as none of them exceeds it. -/
theorem runOps_slots (cfg : Config) (ops : List Op) :
    ∀ e ef : LX8266DMXOutput, runOps cfg ops e = some ef →
      (cfg.DMX_MIN_SLOTS ≤ e._slots → cfg.DMX_MIN_SLOTS < 2 ^ 16 →
        (∀ n, Op.setMaxSlots n ∈ ops → n < 2 ^ 16) →
        cfg.DMX_MIN_SLOTS ≤ ef._slots) ∧
      (e._slots ≤ cfg.DMX_MAX_SLOTS → cfg.DMX_MIN_SLOTS ≤ cfg.DMX_MAX_SLOTS →
        (∀ n, Op.setMaxSlots n ∈ ops → n ≤ (cfg.DMX_MAX_SLOTS : Int)) →
        ef._slots ≤ cfg.DMX_MAX_SLOTS) := by
  induction ops with
  | nil =>
    intro e ef h
    simp only [runOps, Option.some.injEq] at h
    subst h
    exact ⟨fun h _ _ => h, fun h _ _ => h⟩
  | cons op ops ih =>
    intro e ef h
    simp only [runOps] at h
    cases h1 : applyOp cfg op e with
    | none => simp [h1] at h
    | some e1 =>
      simp only [h1, Option.some_bind] at h
      obtain ⟨ihlo, ihhi⟩ := ih e1 ef h
      rcases applyOp_slots cfg op e e1 h1 with ⟨n, rfl, hn⟩ | ⟨_, hsame⟩
      · refine ⟨fun _ hmin hb => ?_, fun _ hcfg hb => ?_⟩
        · have hnb := hb n (List.mem_cons_self _ _)
          exact ihlo (by rw [hn]; omega) hmin
            (fun m hm => hb m (List.mem_cons_of_mem _ hm))
        · have hnb := hb n (List.mem_cons_self _ _)
          have hle : (max n (cfg.DMX_MIN_SLOTS : Int)).toNat % 2 ^ 16 ≤
              (max n (cfg.DMX_MIN_SLOTS : Int)).toNat := Nat.mod_le _ _
          exact ihhi (by rw [hn]; omega) hcfg
            (fun m hm => hb m (List.mem_cons_of_mem _ hm))
      · rw [hsame] at ihlo ihhi
        exact ⟨fun h0 hmin hb =>
            ihlo h0 hmin (fun m hm => hb m (List.mem_cons_of_mem _ hm)),
          fun h0 hcfg hb =>
            ihhi h0 hcfg (fun m hm => hb m (List.mem_cons_of_mem _ hm))⟩

/-! ## Register bits -/

theorem bit32_testBit (k i : Nat) :
    (bit32 k).testBit i = (decide (i < 32) && decide (k = i)) := by
  simp only [bit32, Nat.one_shiftLeft, Nat.testBit_mod_two_pow, Nat.testBit_two_pow]

theorem not32_testBit (m i : Nat) :
    (not32 m).testBit i = (decide (i < 32) && !m.testBit i) := by
  simp only [not32, Nat.testBit_xor, Nat.testBit_two_pow_sub_one, Nat.testBit_mod_two_pow]
  by_cases h : i < 32 <;> simp [h]

/-- Masking a bit leaves it cleared. -/
theorem and_not32_bit32_testBit (x k : Nat) :
    (x &&& not32 (bit32 k)).testBit k = false := by
  simp [not32_testBit, bit32_testBit]

/-- The reset pulse of `uart_tx_flush` leaves a register value alone when its
reset bit was clear. -/
theorem flush_pulse (c k : Nat) (hc : c < 2 ^ 32) (hk : c.testBit k = false) :
    (c ||| (0 ||| bit32 k)) &&& not32 (0 ||| bit32 k) = c := by
  apply Nat.eq_of_testBit_eq
  intro i
  simp only [Nat.zero_or, Nat.testBit_and, Nat.testBit_or, not32_testBit, bit32_testBit]
  by_cases hi : i < 32
  · by_cases hki : k = i
    · subst hki
      simp [hk, hi]
    · simp [hi, hki]
  · have hci : c.testBit i = false :=
      Nat.testBit_lt_two_pow (lt_of_lt_of_le hc (Nat.pow_le_pow_right (by decide) (by omega)))
    simp [hi, hci]

/-! ## Collapsing a sequence of states -/

theorem collapse_replicate_append (a b : Nat) (t : List Nat) (h : a ≠ b) (n : Nat) :
    collapse (List.replicate (n + 1) a ++ b :: t) = a :: collapse (b :: t) := by
  induction n with
  | zero => simp [collapse, h]
  | succ n ih =>
    rw [List.replicate_succ, List.cons_append, List.replicate_succ, List.cons_append,
      collapse, if_pos rfl, ← List.cons_append, ← List.replicate_succ, ih]

theorem collapse_cons_ne (a b : Nat) (t : List Nat) (h : a ≠ b) (n : Nat) :
    collapse (a :: (List.replicate (n + 1) b ++ t)) =
      a :: collapse (List.replicate (n + 1) b ++ t) := by
  rw [List.replicate_succ, List.cons_append, collapse, if_neg h]

theorem collapse_cycle (p q m : Nat) :
    collapse (List.replicate (p + 1) DMX_STATE_IDLE ++ [DMX_STATE_BREAK] ++
        List.replicate (q + 1) DMX_STATE_BREAK_SENT ++ [DMX_STATE_START] ++
        List.replicate (m + 1) DMX_STATE_DATA ++ [DMX_STATE_IDLE]) =
      [DMX_STATE_IDLE, DMX_STATE_BREAK, DMX_STATE_BREAK_SENT, DMX_STATE_START,
        DMX_STATE_DATA, DMX_STATE_IDLE] := by
  simp only [List.append_assoc, List.singleton_append, List.cons_append, List.nil_append]
  rw [collapse_replicate_append _ _ _ (by decide), collapse_cons_ne _ _ _ (by decide),
    collapse_replicate_append _ _ _ (by decide), collapse_cons_ne _ _ _ (by decide),
    collapse_replicate_append _ _ _ (by decide)]
  rfl

/-! ## The settle waits on their own -/

namespace LX8266DMXOutput

/-- The settle wait after the break, from its first event to its last. -/
theorem run_break_sent_phase (cfg : Config) (e : LX8266DMXOutput)
    (hs : e._dmx_state = DMX_STATE_BREAK_SENT) (hi : e._idle_count = 0) :
    run cfg (BREAK_SENT_WAIT + 1) e =
      (List.replicate (BREAK_SENT_WAIT + 1) { state := DMX_STATE_BREAK_SENT, writes := [] },
        { e with _idle_count := BREAK_SENT_WAIT + 1, _dmx_state := DMX_STATE_START }) := by
  have p1 := run_break_sent_wait cfg BREAK_SENT_WAIT e hs (by omega)
  have p2 : run cfg 1 { e with _idle_count := e._idle_count + BREAK_SENT_WAIT } =
      ([{ state := DMX_STATE_BREAK_SENT, writes := [] }],
        { e with _idle_count := BREAK_SENT_WAIT + 1, _dmx_state := DMX_STATE_START }) := by
    rw [run_one, irq_break_sent cfg { e with _idle_count := e._idle_count + BREAK_SENT_WAIT } hs]
    simp [hi, eventOf, hs]
  rw [run_trans cfg _ _ _ _ _ _ _ p1 p2]
  simp [List.replicate_succ' BREAK_SENT_WAIT]

theorem irqs_break_sent_wait (cfg : Config) (e : LX8266DMXOutput) (j : Nat)
    (hs : e._dmx_state = DMX_STATE_BREAK_SENT) (hi : e._idle_count = 0)
    (hj : j ≤ BREAK_SENT_WAIT) :
    irqs cfg j e = { e with _idle_count := j } := by
  rw [irqs_of_run cfg _ _ _ _ (run_break_sent_wait cfg j e hs (by omega))]
  simp [hi]

theorem irqs_idle_wait (cfg : Config) (e : LX8266DMXOutput) (j : Nat)
    (hs : e._dmx_state = DMX_STATE_IDLE) (hi : e._idle_count = 0)
    (hj : j ≤ DATA_END_WAIT) :
    irqs cfg j e = { e with _idle_count := j } := by
  rw [irqs_of_run cfg _ _ _ _ (run_idle_wait cfg j e hs (by omega))]
  simp [hi]

/-- The first events of the first frame of the default engine under
`sampleConfig`. -/
theorem irqs_sample (i : Nat) (hi : i ≤ 611) :
    irqs sampleConfig i (start sampleConfig (new sampleConfig sampleRaw)) =
      frameAt sampleConfig (start sampleConfig (new sampleConfig sampleRaw)) i :=
  irqs_frameAt sampleConfig _ i (by decide) (by decide) (le_trans hi (by decide))

/-- Everything but the state, the two counters, the divisor and format
registers and the FIFO is as the handler found it. -/
theorem irq_changes (cfg : Config) (e : LX8266DMXOutput) :
    _tx_empty_irq cfg e =
      { e with
        _dmx_state := (_tx_empty_irq cfg e)._dmx_state
        _idle_count := (_tx_empty_irq cfg e)._idle_count
        _current_slot := (_tx_empty_irq cfg e)._current_slot
        hw := { e.hw with
          USD := (_tx_empty_irq cfg e).hw.USD
          USC0 := (_tx_empty_irq cfg e).hw.USC0
          USF := (_tx_empty_irq cfg e).hw.USF } } := by
  unfold _tx_empty_irq
  simp only []
  repeat' split
  all_goals rfl

end LX8266DMXOutput

/-! ## Counting the states of a frame -/

theorem count_cycle (p q m : Nat) :
    (List.replicate p DMX_STATE_IDLE ++ [DMX_STATE_BREAK] ++
        List.replicate q DMX_STATE_BREAK_SENT ++ [DMX_STATE_START] ++
        List.replicate m DMX_STATE_DATA).count DMX_STATE_BREAK_SENT = q ∧
    (List.replicate p DMX_STATE_IDLE ++ [DMX_STATE_BREAK] ++
        List.replicate q DMX_STATE_BREAK_SENT ++ [DMX_STATE_START] ++
        List.replicate m DMX_STATE_DATA).count DMX_STATE_IDLE = p := by
  simp only [List.count_append, List.count_replicate, List.count_singleton]
  simp [DMX_STATE_IDLE, DMX_STATE_BREAK, DMX_STATE_BREAK_SENT, DMX_STATE_START,
    DMX_STATE_DATA]

/-! ## The pending bit of the interrupt status -/

theorem bit32_eq (k : Nat) (hk : k < 32) : bit32 k = 1 <<< k := by
  unfold bit32
  rw [Nat.one_shiftLeft]
  exact Nat.mod_eq_of_lt (Nat.pow_lt_pow_right (by decide) hk)

/-- The test `x & (1 << k)` of a register bit. -/
theorem and_bit32_ne_zero (x k : Nat) (hk : k < 32) :
    x &&& bit32 k ≠ 0 ↔ x.testBit k = true := by
  constructor
  · intro h
    by_contra hx
    apply h
    apply Nat.eq_of_testBit_eq
    intro i
    rw [Nat.testBit_and, bit32_testBit, Nat.zero_testBit]
    by_cases hki : k = i
    · subst hki; simp [hx]
    · simp [hki]
  · intro h h0
    have h1 : (x &&& bit32 k).testBit k = true := by
      rw [Nat.testBit_and, bit32_testBit, h]
      simp [hk]
    rw [h0, Nat.zero_testBit] at h1
    cases h1

/-! ## The cursor stays inside the buffer -/

namespace LX8266DMXOutput

/-- A value of `_dmx_state` that is none of the five states: the `switch` of
the handler has no case for it. -/
theorem irq_other (cfg : Config) (e : LX8266DMXOutput)
    (h0 : e._dmx_state ≠ DMX_STATE_BREAK) (h1 : e._dmx_state ≠ DMX_STATE_START)
    (h2 : e._dmx_state ≠ DMX_STATE_DATA) (h3 : e._dmx_state ≠ DMX_STATE_IDLE)
    (h4 : e._dmx_state ≠ DMX_STATE_BREAK_SENT) : _tx_empty_irq cfg e = e := by
  unfold _tx_empty_irq
  rw [if_neg h0, if_neg h1, if_neg h2, if_neg h3, if_neg h4]

theorem readSlot_behind (e : LX8266DMXOutput) (b : Nat → Nat) (i : Nat)
    (h : i < e._dmxData.length) : readSlot { e with behind := b } i = readSlot e i := by
  simp [readSlot, List.getElem?_eq_getElem h]

/-- One event keeps the cursor of the data phase between 1 and
`DMX_MAX_SLOTS` when the slot count is in that range. -/
theorem irq_cursor (cfg : Config) (e : LX8266DMXOutput)
    (hlo : 1 ≤ e._slots) (hhi : e._slots ≤ cfg.DMX_MAX_SLOTS)
    (hcur : e._dmx_state = DMX_STATE_DATA →
      1 ≤ e._current_slot ∧ e._current_slot ≤ cfg.DMX_MAX_SLOTS) :
    (_tx_empty_irq cfg e)._dmx_state = DMX_STATE_DATA →
      1 ≤ (_tx_empty_irq cfg e)._current_slot ∧
        (_tx_empty_irq cfg e)._current_slot ≤ cfg.DMX_MAX_SLOTS := by
  by_cases h0 : e._dmx_state = DMX_STATE_BREAK
  · rw [irq_break cfg e h0]
    intro h
    cases h
  by_cases h1 : e._dmx_state = DMX_STATE_START
  · rw [irq_start cfg e h1]
    intro _
    exact ⟨le_refl _, le_trans hlo hhi⟩
  by_cases h2 : e._dmx_state = DMX_STATE_DATA
  · rw [irq_data cfg e h2]
    split
    · intro h
      cases h
    · rename_i hc
      intro _
      show 1 ≤ e._current_slot + 1 ∧ e._current_slot + 1 ≤ cfg.DMX_MAX_SLOTS
      omega
  by_cases h3 : e._dmx_state = DMX_STATE_IDLE
  · rw [irq_idle cfg e h3]
    split
    · intro h
      cases h
    · intro h
      exact absurd h h2
  by_cases h4 : e._dmx_state = DMX_STATE_BREAK_SENT
  · rw [irq_break_sent cfg e h4]
    split
    · intro h
      cases h
    · intro h
      exact absurd h h2
  · rw [irq_other cfg e h0 h1 h2 h3 h4]
    exact hcur

/-- With the indices it reads inside the buffer, the handler does not depend
on what lies behind the buffer. -/
theorem irq_behind (cfg : Config) (e : LX8266DMXOutput) (b : Nat → Nat)
    (hS : e._dmx_state = DMX_STATE_START → 0 < e._dmxData.length)
    (hD : e._dmx_state = DMX_STATE_DATA → e._current_slot < e._dmxData.length) :
    _tx_empty_irq cfg { e with behind := b } = { _tx_empty_irq cfg e with behind := b } := by
  by_cases h0 : e._dmx_state = DMX_STATE_BREAK
  · rw [irq_break cfg e h0, irq_break cfg { e with behind := b } h0]
  by_cases h1 : e._dmx_state = DMX_STATE_START
  · rw [irq_start cfg e h1, irq_start cfg { e with behind := b } h1,
      readSlot_behind e b 0 (hS h1)]
  by_cases h2 : e._dmx_state = DMX_STATE_DATA
  · rw [irq_data cfg e h2, irq_data cfg { e with behind := b } h2]
    show (if e._current_slot + 1 > e._slots then _ else _) = _
    rw [show readSlot { e with behind := b } e._current_slot = readSlot e e._current_slot from
      readSlot_behind e b _ (hD h2)]
    split <;> rfl
  by_cases h3 : e._dmx_state = DMX_STATE_IDLE
  · rw [irq_idle cfg e h3, irq_idle cfg { e with behind := b } h3]
    show (if e._idle_count + 1 > DATA_END_WAIT then _ else _) = _
    split <;> rfl
  by_cases h4 : e._dmx_state = DMX_STATE_BREAK_SENT
  · rw [irq_break_sent cfg e h4, irq_break_sent cfg { e with behind := b } h4]
    show (if e._idle_count + 1 > BREAK_SENT_WAIT then _ else _) = _
    split <;> rfl
  · rw [irq_other cfg e h0 h1 h2 h3 h4, irq_other cfg { e with behind := b } h0 h1 h2 h3 h4]

end LX8266DMXOutput

/-- One call keeps the length of the buffer, and the cursor of the data phase
between 1 and `DMX_MAX_SLOTS` when the slot count is in that range. -/
theorem applyOp_cursor (cfg : Config) (op : Op) (e e1 : LX8266DMXOutput)
    (h : applyOp cfg op e = some e1)
    (hlo : 1 ≤ e._slots) (hhi : e._slots ≤ cfg.DMX_MAX_SLOTS)
    (hlen : e._dmxData.length = cfg.DMX_MAX_SLOTS + 1)
    (hcur : e._dmx_state = DMX_STATE_DATA →
      1 ≤ e._current_slot ∧ e._current_slot ≤ cfg.DMX_MAX_SLOTS) :
    e1._dmxData.length = cfg.DMX_MAX_SLOTS + 1 ∧
      (e1._dmx_state = DMX_STATE_DATA →
        1 ≤ e1._current_slot ∧ e1._current_slot ≤ cfg.DMX_MAX_SLOTS) := by
  cases op with
  | setMaxSlots n =>
    simp only [applyOp, Option.some.injEq] at h
    subst h
    exact ⟨hlen, hcur⟩
  | setSlot k v =>
    simp only [applyOp, LX8266DMXOutput.setSlot] at h
    split_ifs at h
    cases h
    exact ⟨by simpa using hlen, hcur⟩
  | start =>
    simp only [applyOp, Option.some.injEq] at h
    subst h
    by_cases hf : e._interrupt_status = ISR_ENABLED
    · have he : LX8266DMXOutput.start cfg e = e := by simp [LX8266DMXOutput.start, hf]
      rw [he]
      exact ⟨hlen, hcur⟩
    · rw [LX8266DMXOutput.start_eq cfg e hf]
      exact ⟨hlen, fun hd => by cases hd⟩
  | stop =>
    simp only [applyOp, Option.some.injEq] at h
    subst h
    exact ⟨hlen, hcur⟩
  | tx_empty_irq =>
    simp only [applyOp, Option.some.injEq] at h
    subst h
    exact ⟨by rw [(irq_keeps cfg e).2.1]; exact hlen,
      LX8266DMXOutput.irq_cursor cfg e hlo hhi hcur⟩

theorem traceOps_cons (cfg : Config) (op : Op) (ops : List Op) (e : LX8266DMXOutput)
    (tr : List LX8266DMXOutput) (h : traceOps cfg (op :: ops) e = some tr) :
    ∃ e1 tr1, applyOp cfg op e = some e1 ∧ traceOps cfg ops e1 = some tr1 ∧
      tr = e :: tr1 := by
  simp only [traceOps] at h
  cases h1 : applyOp cfg op e with
  | none => simp [h1] at h
  | some e1 =>
    simp only [h1, Option.some_bind] at h
    cases h2 : traceOps cfg ops e1 with
    | none => simp [h2] at h
    | some tr1 =>
      simp only [h2, Option.map_some', Option.some.injEq] at h
      exact ⟨e1, tr1, rfl, h2, h.symm⟩

/-- Along a sequence of calls that keeps the slot count between 1 and
`DMX_MAX_SLOTS`, the buffer keeps its length and the cursor of the data phase
stays between 1 and `DMX_MAX_SLOTS`. -/
theorem traceOps_cursor (cfg : Config) (ops : List Op) :
    ∀ (e : LX8266DMXOutput) (tr : List LX8266DMXOutput),
      traceOps cfg ops e = some tr →
      e._dmxData.length = cfg.DMX_MAX_SLOTS + 1 →
      (e._dmx_state = DMX_STATE_DATA →
        1 ≤ e._current_slot ∧ e._current_slot ≤ cfg.DMX_MAX_SLOTS) →
      (∀ s ∈ tr, 1 ≤ s._slots ∧ s._slots ≤ cfg.DMX_MAX_SLOTS) →
      ∀ s ∈ tr, s._dmxData.length = cfg.DMX_MAX_SLOTS + 1 ∧
        (s._dmx_state = DMX_STATE_DATA →
          1 ≤ s._current_slot ∧ s._current_slot ≤ cfg.DMX_MAX_SLOTS) := by
  induction ops with
  | nil =>
    intro e tr h hlen hcur _ s hs
    simp only [traceOps, Option.some.injEq] at h
    subst h
    rw [List.mem_singleton] at hs
    subst hs
    exact ⟨hlen, hcur⟩
  | cons op ops ih =>
    intro e tr h hlen hcur hsl s hs
    obtain ⟨e1, tr1, h1, h2, rfl⟩ := traceOps_cons cfg op ops e tr h
    rcases List.mem_cons.mp hs with rfl | hs1
    · exact ⟨hlen, hcur⟩
    · have he := hsl e (List.mem_cons_self _ _)
      obtain ⟨hlen1, hcur1⟩ := applyOp_cursor cfg op e e1 h1 he.1 he.2 hlen hcur
      exact ih e1 tr1 h2 hlen1 hcur1 (fun t ht => hsl t (List.mem_cons_of_mem _ ht)) s hs1

/-! ## The period of the state machine -/

namespace LX8266DMXOutput

theorem frameAt_idle_count (cfg : Config) (e : LX8266DMXOutput) (i : Nat)
    (h : i ≤ DATA_END_WAIT) : (frameAt cfg e i)._idle_count = i := by
  unfold frameAt
  rw [if_pos h]

/-- Whole frames, one after the other. -/
theorem irqs_frames (cfg : Config) (k : Nat) :
    ∀ e : LX8266DMXOutput, e._dmx_state = DMX_STATE_IDLE → e._idle_count = 0 →
      (irqs cfg (k * (lastSlot e + 99)) e)._dmx_state = DMX_STATE_IDLE ∧
      (irqs cfg (k * (lastSlot e + 99)) e)._idle_count = 0 ∧
      (irqs cfg (k * (lastSlot e + 99)) e)._slots = e._slots := by
  induction k with
  | zero =>
    intro e hs hi
    rw [Nat.zero_mul]
    exact ⟨hs, hi, rfl⟩
  | succ k ih =>
    intro e hs hi
    rw [Nat.succ_mul, Nat.add_comm, irqs_add,
      irqs_of_run cfg _ _ _ _ (run_frame cfg e hs hi)]
    exact ih (frameEnd cfg e) rfl rfl

end LX8266DMXOutput

/-! ## The claims -/

/-- C1: started on a slot count `N` with `DMX_MIN_SLOTS ≤ N ≤ DMX_MAX_SLOTS`
(the minimum being positive), the engine is in `DMX_STATE_IDLE` with the idle
counter at zero, and the next `N + 99` events make one frame cycle: the handler
writes the FIFO once in `DMX_STATE_START` and `N` times in `DMX_STATE_DATA`,
these `N + 1` bytes follow the break byte in the FIFO log, the state is back to
`DMX_STATE_IDLE` after the last event and not between the settle wait and
then, and the cursor exceeds `_slots` after that last event only. -/
theorem frame_cycle_transmits_slots_plus_one (cfg : Config) (e : LX8266DMXOutput) (N : Nat)
    (hmin : 0 < cfg.DMX_MIN_SLOTS)
    (hlo : cfg.DMX_MIN_SLOTS ≤ N) (hhi : N ≤ cfg.DMX_MAX_SLOTS)
    (hN : e._slots = N) (hlen : e._dmxData.length = cfg.DMX_MAX_SLOTS + 1)
    (hoff : e._interrupt_status ≠ ISR_ENABLED) :
    (LX8266DMXOutput.start cfg e)._dmx_state = DMX_STATE_IDLE ∧
    (LX8266DMXOutput.start cfg e)._idle_count = 0 ∧
    (LX8266DMXOutput.irqs cfg (N + 99) (LX8266DMXOutput.start cfg e))._dmx_state =
      DMX_STATE_IDLE ∧
    ((LX8266DMXOutput.run cfg (N + 99) (LX8266DMXOutput.start cfg e)).1.filter
      (fun ev => ev.state = DMX_STATE_START)).map (fun ev => ev.writes.length) = [1] ∧
    ((LX8266DMXOutput.run cfg (N + 99) (LX8266DMXOutput.start cfg e)).1.filter
      (fun ev => ev.state = DMX_STATE_DATA)).map (fun ev => ev.writes.length) =
      List.replicate N 1 ∧
    (LX8266DMXOutput.irqs cfg (N + 99) (LX8266DMXOutput.start cfg e)).hw.USF =
      (LX8266DMXOutput.start cfg e).hw.USF ++ LX8266DMXOutput.breakWrite cfg ::
        (e._dmxData.take (N + 1)).map (LX8266DMXOutput.dataWrite cfg) ∧
    ((e._dmxData.take (N + 1)).map (LX8266DMXOutput.dataWrite cfg)).length = N + 1 ∧
    ∀ i, i ≤ N + 99 →
      (LX8266DMXOutput.irqs cfg i (LX8266DMXOutput.start cfg e))._slots = N ∧
      ((LX8266DMXOutput.irqs cfg i (LX8266DMXOutput.start cfg e))._dmx_state =
        DMX_STATE_IDLE ↔ i ≤ DATA_END_WAIT ∨ i = N + 99) ∧
      ((LX8266DMXOutput.irqs cfg i (LX8266DMXOutput.start cfg e))._dmx_state =
        DMX_STATE_DATA ↔ 99 ≤ i ∧ i < N + 99) ∧
      (99 ≤ i →
        (LX8266DMXOutput.irqs cfg i (LX8266DMXOutput.start cfg e))._current_slot = i - 98 ∧
        ((LX8266DMXOutput.irqs cfg i (LX8266DMXOutput.start cfg e))._slots <
            (LX8266DMXOutput.irqs cfg i (LX8266DMXOutput.start cfg e))._current_slot ↔
          i = N + 99)) := by
  have hst := LX8266DMXOutput.start_eq cfg e hoff
  have hs : (LX8266DMXOutput.start cfg e)._dmx_state = DMX_STATE_IDLE := by rw [hst]
  have hi : (LX8266DMXOutput.start cfg e)._idle_count = 0 := by rw [hst]
  have hsl : (LX8266DMXOutput.start cfg e)._slots = N := by rw [hst]; exact hN
  have hd : (LX8266DMXOutput.start cfg e)._dmxData = e._dmxData := by rw [hst]
  have hL : LX8266DMXOutput.lastSlot (LX8266DMXOutput.start cfg e) = N := by
    show max (LX8266DMXOutput.start cfg e)._slots 1 = N
    rw [hsl]; exact max_eq_left (by omega)
  have hrun := LX8266DMXOutput.run_frame cfg (LX8266DMXOutput.start cfg e) hs hi
  rw [hL] at hrun
  have hirq := LX8266DMXOutput.irqs_of_run cfg _ _ _ _ hrun
  rw [hirq, hrun]
  refine ⟨hs, hi, rfl, ?_, ?_, ?_, ?_, ?_⟩
  · rw [LX8266DMXOutput.frameEvents_filter_start]; rfl
  · rw [LX8266DMXOutput.frameEvents_filter_data, List.map_map, hL]
    simp only [Function.comp_def, List.length_singleton, List.map_const', List.length_range']
  · rw [LX8266DMXOutput.frameEnd_USF, hL,
      LX8266DMXOutput.sentBytes_eq_take cfg _ (N + 1) (by rw [hd, hlen]; omega), hd]
  · rw [List.length_map, List.length_take]; omega
  · intro i hik
    have hf := LX8266DMXOutput.frameAt_facts cfg (LX8266DMXOutput.start cfg e) i hs
      (by rw [hL]; exact hik)
    rw [hL, hsl] at hf
    rw [LX8266DMXOutput.irqs_frameAt cfg (LX8266DMXOutput.start cfg e) i hs hi
      (by rw [hL]; exact hik)]
    refine ⟨hf.1, hf.2.2.1, hf.2.2.2.2.2.2.1, ?_⟩
    intro h99
    have hc := hf.2.2.2.2.2.2.2 h99
    rw [hc, hf.1]
    exact ⟨rfl, by omega⟩

/-- C1, at a concrete input: the engine of the default constructor under
`sampleConfig`, with its 512 slots. -/
theorem frame_cycle_transmits_slots_plus_one_witness :
    (0 < sampleConfig.DMX_MIN_SLOTS ∧ sampleConfig.DMX_MIN_SLOTS ≤ 512 ∧
      512 ≤ sampleConfig.DMX_MAX_SLOTS ∧
      (LX8266DMXOutput.new sampleConfig sampleRaw)._slots = 512 ∧
      (LX8266DMXOutput.new sampleConfig sampleRaw)._dmxData.length =
        sampleConfig.DMX_MAX_SLOTS + 1 ∧
      (LX8266DMXOutput.new sampleConfig sampleRaw)._interrupt_status ≠ ISR_ENABLED) ∧
    (LX8266DMXOutput.irqs sampleConfig (512 + 99)
      (LX8266DMXOutput.start sampleConfig
        (LX8266DMXOutput.new sampleConfig sampleRaw)))._dmx_state = DMX_STATE_IDLE ∧
    ((LX8266DMXOutput.run sampleConfig (512 + 99)
      (LX8266DMXOutput.start sampleConfig (LX8266DMXOutput.new sampleConfig sampleRaw))).1.filter
      (fun ev => ev.state = DMX_STATE_DATA)).map (fun ev => ev.writes.length) =
      List.replicate 512 1 := by
  have h1 : 0 < sampleConfig.DMX_MIN_SLOTS := by decide
  have h2 : sampleConfig.DMX_MIN_SLOTS ≤ 512 := by decide
  have h3 : 512 ≤ sampleConfig.DMX_MAX_SLOTS := by decide
  have h4 : (LX8266DMXOutput.new sampleConfig sampleRaw)._slots = 512 := rfl
  have h5 : (LX8266DMXOutput.new sampleConfig sampleRaw)._dmxData.length =
      sampleConfig.DMX_MAX_SLOTS + 1 := by
    simp [LX8266DMXOutput.new]
  have h6 : (LX8266DMXOutput.new sampleConfig sampleRaw)._interrupt_status ≠ ISR_ENABLED := by
    decide
  have h := frame_cycle_transmits_slots_plus_one sampleConfig
    (LX8266DMXOutput.new sampleConfig sampleRaw) 512 h1 h2 h3 h4 h5 h6
  exact ⟨⟨h1, h2, h3, h4, h5, h6⟩, h.2.2.1, h.2.2.2.2.1⟩

/-- C2: for every slot count `N ≥ 1` and every buffer, the FIFO writes of one
frame cycle are one zero byte at `DMX_BREAK_BAUD` with `FORMAT_8E1`, followed
by the bytes `_dmxData[0]`, ..., `_dmxData[N]` in this order at `DMX_DATA_BAUD`
with `FORMAT_8N2`.  (`readSlot e k` is the read `_dmxData[k]`: the buffer entry
for every index inside the buffer.) -/
theorem frame_bytes_in_buffer_order (cfg : Config) (e : LX8266DMXOutput) (N : Nat)
    (hN1 : 1 ≤ N) (hs : e._dmx_state = DMX_STATE_IDLE) (hi : e._idle_count = 0)
    (hsl : e._slots = N) :
    (LX8266DMXOutput.irqs cfg (N + 99) e).hw.USF = e.hw.USF ++
      { USD := cfg.ESP8266_CLOCK / DMX_BREAK_BAUD, USC0 := FORMAT_8E1, value := 0x00 } ::
        (List.range (N + 1)).map (fun k =>
          { USD := cfg.ESP8266_CLOCK / DMX_DATA_BAUD, USC0 := FORMAT_8N2,
            value := LX8266DMXOutput.readSlot e k }) ∧
    (∀ k, k < e._dmxData.length → e._dmxData[k]? = some (LX8266DMXOutput.readSlot e k)) ∧
    (((LX8266DMXOutput.irqs cfg (N + 99) e).hw.USF.drop e.hw.USF.length).filter (fun w =>
        w.USD = cfg.ESP8266_CLOCK / DMX_DATA_BAUD ∧ w.USC0 = FORMAT_8N2)).map
      (fun w => w.value) = (List.range (N + 1)).map (LX8266DMXOutput.readSlot e) ∧
    ((LX8266DMXOutput.irqs cfg (N + 99) e).hw.USF.drop e.hw.USF.length).filter (fun w =>
        w.USD = cfg.ESP8266_CLOCK / DMX_BREAK_BAUD ∧ w.USC0 = FORMAT_8E1) =
      [{ USD := cfg.ESP8266_CLOCK / DMX_BREAK_BAUD, USC0 := FORMAT_8E1, value := 0x00 }] ∧
    ((LX8266DMXOutput.irqs cfg (N + 99) e).hw.USF.drop e.hw.USF.length).head? =
      some { USD := cfg.ESP8266_CLOCK / DMX_BREAK_BAUD, USC0 := FORMAT_8E1, value := 0x00 } := by
  have hL : LX8266DMXOutput.lastSlot e = N := by
    show max e._slots 1 = N
    rw [hsl]; exact max_eq_left hN1
  have hrun := LX8266DMXOutput.run_frame cfg e hs hi
  rw [hL] at hrun
  have hU : (LX8266DMXOutput.irqs cfg (N + 99) e).hw.USF = e.hw.USF ++
      LX8266DMXOutput.breakWrite cfg ::
        (List.range (N + 1)).map (fun k =>
          LX8266DMXOutput.dataWrite cfg (LX8266DMXOutput.readSlot e k)) := by
    rw [LX8266DMXOutput.irqs_of_run cfg _ _ _ _ hrun, LX8266DMXOutput.frameEnd_USF, hL]
    rfl
  refine ⟨hU, fun k hk => LX8266DMXOutput.readSlot_of_lt e k hk, ?_, ?_, ?_⟩
  · rw [hU, List.drop_left]
    generalize List.range (N + 1) = l
    simp [LX8266DMXOutput.breakWrite, LX8266DMXOutput.dataWrite, List.filter_map,
      Function.comp_def, FORMAT_8E1, FORMAT_8N2]
  · rw [hU, List.drop_left]
    generalize List.range (N + 1) = l
    simp [LX8266DMXOutput.breakWrite, LX8266DMXOutput.dataWrite, List.filter_map,
      Function.comp_def, FORMAT_8E1, FORMAT_8N2]
  · rw [hU, List.drop_left]
    rfl

set_option maxRecDepth 100000 in
/-- C2, at the example of the claim: slot count 3 and buffer 0, 10, 20, 30. -/
theorem frame_bytes_in_buffer_order_witness :
    (1 ≤ 3 ∧
      (LX8266DMXOutput.start sampleConfig exampleEngine)._dmx_state = DMX_STATE_IDLE ∧
      (LX8266DMXOutput.start sampleConfig exampleEngine)._idle_count = 0 ∧
      (LX8266DMXOutput.start sampleConfig exampleEngine)._slots = 3) ∧
    (LX8266DMXOutput.start sampleConfig exampleEngine)._dmxData.take 4 = [0, 10, 20, 30] ∧
    (LX8266DMXOutput.irqs sampleConfig (3 + 99)
        (LX8266DMXOutput.start sampleConfig exampleEngine)).hw.USF =
      [{ USD := 80000000 / 90000, USC0 := 0x1C, value := 0 },
        { USD := 80000000 / 250000, USC0 := 0x3C, value := 0 },
        { USD := 80000000 / 250000, USC0 := 0x3C, value := 10 },
        { USD := 80000000 / 250000, USC0 := 0x3C, value := 20 },
        { USD := 80000000 / 250000, USC0 := 0x3C, value := 30 }] := by
  have h1 : (1 : Nat) ≤ 3 := by decide
  have h4 : (LX8266DMXOutput.start sampleConfig exampleEngine)._dmx_state =
      DMX_STATE_IDLE := by decide
  have h5 : (LX8266DMXOutput.start sampleConfig exampleEngine)._idle_count = 0 := by decide
  have h6 : (LX8266DMXOutput.start sampleConfig exampleEngine)._slots = 3 := by decide
  have h7 : (LX8266DMXOutput.start sampleConfig exampleEngine)._dmxData.take 4 =
      [0, 10, 20, 30] := by decide
  have hu := (frame_bytes_in_buffer_order sampleConfig
    (LX8266DMXOutput.start sampleConfig exampleEngine) 3 h1 h4 h5 h6).1
  refine ⟨⟨h1, h4, h5, h6⟩, h7, hu.trans ?_⟩
  decide

/-- C3: from the state `start` leaves, for every slot count `N` (in
particular every `N ≥ DMX_MIN_SLOTS`), the values of `_dmx_state` over one
cycle are 26 times `DMX_STATE_IDLE`, `DMX_STATE_BREAK`, 71 times
`DMX_STATE_BREAK_SENT`, `DMX_STATE_START`, `DMX_STATE_DATA` once for each slot
(`N` times, and once when `N = 0`) and `DMX_STATE_IDLE`; with repetitions
collapsed this is IDLE, BREAK, BREAK_SENT, START, DATA, IDLE. -/
theorem state_sequence_of_cycle (cfg : Config) (e : LX8266DMXOutput) (N : Nat)
    (hN : e._slots = N) (hoff : e._interrupt_status ≠ ISR_ENABLED) :
    (LX8266DMXOutput.run cfg (max N 1 + 99) (LX8266DMXOutput.start cfg e)).1.map
        (fun ev => ev.state) ++
      [(LX8266DMXOutput.irqs cfg (max N 1 + 99) (LX8266DMXOutput.start cfg e))._dmx_state] =
      List.replicate (DATA_END_WAIT + 1) DMX_STATE_IDLE ++ [DMX_STATE_BREAK] ++
        List.replicate (BREAK_SENT_WAIT + 1) DMX_STATE_BREAK_SENT ++ [DMX_STATE_START] ++
        List.replicate (max N 1) DMX_STATE_DATA ++ [DMX_STATE_IDLE] ∧
    collapse ((LX8266DMXOutput.run cfg (max N 1 + 99) (LX8266DMXOutput.start cfg e)).1.map
        (fun ev => ev.state) ++
      [(LX8266DMXOutput.irqs cfg (max N 1 + 99)
        (LX8266DMXOutput.start cfg e))._dmx_state]) =
      [DMX_STATE_IDLE, DMX_STATE_BREAK, DMX_STATE_BREAK_SENT, DMX_STATE_START,
        DMX_STATE_DATA, DMX_STATE_IDLE] := by
  have hst := LX8266DMXOutput.start_eq cfg e hoff
  have hs : (LX8266DMXOutput.start cfg e)._dmx_state = DMX_STATE_IDLE := by rw [hst]
  have hi : (LX8266DMXOutput.start cfg e)._idle_count = 0 := by rw [hst]
  have hL : LX8266DMXOutput.lastSlot (LX8266DMXOutput.start cfg e) = max N 1 := by
    show max (LX8266DMXOutput.start cfg e)._slots 1 = max N 1
    rw [hst]; exact congrArg (fun x => max x 1) hN
  have hrun := LX8266DMXOutput.run_frame cfg (LX8266DMXOutput.start cfg e) hs hi
  rw [hL] at hrun
  have hseq : (LX8266DMXOutput.run cfg (max N 1 + 99) (LX8266DMXOutput.start cfg e)).1.map
        (fun ev => ev.state) ++
      [(LX8266DMXOutput.irqs cfg (max N 1 + 99)
        (LX8266DMXOutput.start cfg e))._dmx_state] =
      List.replicate (DATA_END_WAIT + 1) DMX_STATE_IDLE ++ [DMX_STATE_BREAK] ++
        List.replicate (BREAK_SENT_WAIT + 1) DMX_STATE_BREAK_SENT ++ [DMX_STATE_START] ++
        List.replicate (max N 1) DMX_STATE_DATA ++ [DMX_STATE_IDLE] := by
    rw [LX8266DMXOutput.irqs_of_run cfg _ _ _ _ hrun, hrun,
      LX8266DMXOutput.frameEvents_states, hL]
    rfl
  refine ⟨hseq, ?_⟩
  rw [hseq]
  obtain ⟨m, hm⟩ : ∃ m, max N 1 = m + 1 := ⟨max N 1 - 1, by omega⟩
  rw [hm]
  exact collapse_cycle DATA_END_WAIT BREAK_SENT_WAIT m

/-- C3, at a concrete input: the default engine under `sampleConfig` with
the slot count set to 24. -/
theorem state_sequence_of_cycle_witness :
    ((LX8266DMXOutput.setMaxSlots sampleConfig
        (LX8266DMXOutput.new sampleConfig sampleRaw) 24)._slots = 24 ∧
      (LX8266DMXOutput.setMaxSlots sampleConfig
        (LX8266DMXOutput.new sampleConfig sampleRaw) 24)._interrupt_status ≠ ISR_ENABLED) ∧
    collapse ((LX8266DMXOutput.run sampleConfig (max 24 1 + 99)
        (LX8266DMXOutput.start sampleConfig
          (LX8266DMXOutput.setMaxSlots sampleConfig
            (LX8266DMXOutput.new sampleConfig sampleRaw) 24))).1.map (fun ev => ev.state) ++
      [(LX8266DMXOutput.irqs sampleConfig (max 24 1 + 99)
        (LX8266DMXOutput.start sampleConfig
          (LX8266DMXOutput.setMaxSlots sampleConfig
            (LX8266DMXOutput.new sampleConfig sampleRaw) 24)))._dmx_state]) =
      [DMX_STATE_IDLE, DMX_STATE_BREAK, DMX_STATE_BREAK_SENT, DMX_STATE_START,
        DMX_STATE_DATA, DMX_STATE_IDLE] := by
  have h4 : (LX8266DMXOutput.setMaxSlots sampleConfig
      (LX8266DMXOutput.new sampleConfig sampleRaw) 24)._slots = 24 := by decide
  have h6 : (LX8266DMXOutput.setMaxSlots sampleConfig
      (LX8266DMXOutput.new sampleConfig sampleRaw) 24)._interrupt_status ≠ ISR_ENABLED := by
    decide
  exact ⟨⟨h4, h6⟩, (state_sequence_of_cycle sampleConfig
    (LX8266DMXOutput.setMaxSlots sampleConfig (LX8266DMXOutput.new sampleConfig sampleRaw) 24)
    24 h4 h6).2⟩

/-- C4, amended: for an engine of the default constructor, or of the
(pin, slots) constructor called with `DMX_MIN_SLOTS ≤ slots ≤ DMX_MAX_SLOTS`,
after any sequence of `setMaxSlots`, `setSlot`, `start`, `stop` and
`_tx_empty_irq` calls: the slot count is at least `DMX_MIN_SLOTS` when every
count given to `setMaxSlots` fits the 16 bits of `_slots`, and it is between
`DMX_MIN_SLOTS` and `DMX_MAX_SLOTS` when no `setMaxSlots` call was given more
than `DMX_MAX_SLOTS`.  The capacity `DMX_MAX_SLOTS` is one that fits 16 bits. -/
theorem slot_count_bounds (cfg : Config) (e0 ef : LX8266DMXOutput) (ops : List Op)
    (hcfg : cfg.DMX_MIN_SLOTS ≤ cfg.DMX_MAX_SLOTS)
    (hcap : cfg.DMX_MAX_SLOTS < 2 ^ 16)
    (h0 : (∃ raw, e0 = LX8266DMXOutput.new cfg raw) ∨
      (∃ raw pin slots, e0 = LX8266DMXOutput.newWithPin cfg raw pin slots ∧
        slots < 2 ^ 16 ∧ cfg.DMX_MIN_SLOTS ≤ slots ∧ slots ≤ cfg.DMX_MAX_SLOTS))
    (hrun : runOps cfg ops e0 = some ef) :
    ((∀ n, Op.setMaxSlots n ∈ ops → n < 2 ^ 16) → cfg.DMX_MIN_SLOTS ≤ ef._slots) ∧
      ((∀ n, Op.setMaxSlots n ∈ ops → n ≤ (cfg.DMX_MAX_SLOTS : Int)) →
        cfg.DMX_MIN_SLOTS ≤ ef._slots ∧ ef._slots ≤ cfg.DMX_MAX_SLOTS) := by
  have hinit : cfg.DMX_MIN_SLOTS ≤ e0._slots ∧ e0._slots ≤ cfg.DMX_MAX_SLOTS := by
    rcases h0 with ⟨raw, rfl⟩ | ⟨raw, pin, slots, rfl, h16, hlo, hhi⟩
    · exact ⟨hcfg, le_refl _⟩
    · have hs : (LX8266DMXOutput.newWithPin cfg raw pin slots)._slots = slots :=
        Nat.mod_eq_of_lt h16
      rw [hs]
      exact ⟨hlo, hhi⟩
  have hmin16 : cfg.DMX_MIN_SLOTS < 2 ^ 16 := lt_of_le_of_lt hcfg hcap
  obtain ⟨hlo, hhi⟩ := runOps_slots cfg ops e0 ef hrun
  refine ⟨fun hb => hlo hinit.1 hmin16 hb, fun hb => ⟨hlo hinit.1 hmin16 ?_, hhi hinit.2 hcfg hb⟩⟩
  intro n hn
  have h1 := hb n hn
  have h2 : (cfg.DMX_MAX_SLOTS : Int) < 2 ^ 16 := by exact_mod_cast hcap
  omega

set_option maxRecDepth 100000 in
/-- C4, at a concrete input: the default engine under `sampleConfig` after a
slot count of 100 is set, the engine is started, the handler runs twice, a
slot is written and the engine is stopped. -/
theorem slot_count_bounds_witness :
    sampleConfig.DMX_MIN_SLOTS ≤ sampleConfig.DMX_MAX_SLOTS ∧
    sampleConfig.DMX_MAX_SLOTS < 2 ^ 16 ∧
    ∃ ef, runOps sampleConfig
        [Op.setMaxSlots 100, Op.start, Op.tx_empty_irq, Op.tx_empty_irq, Op.setSlot 5 7,
          Op.stop]
        (LX8266DMXOutput.new sampleConfig sampleRaw) = some ef ∧
      sampleConfig.DMX_MIN_SLOTS ≤ ef._slots ∧ ef._slots ≤ sampleConfig.DMX_MAX_SLOTS := by
  have hcfg : sampleConfig.DMX_MIN_SLOTS ≤ sampleConfig.DMX_MAX_SLOTS := by decide
  obtain ⟨ef, hef⟩ := Option.isSome_iff_exists.mp
    (by decide : (runOps sampleConfig
      [Op.setMaxSlots 100, Op.start, Op.tx_empty_irq, Op.tx_empty_irq, Op.setSlot 5 7,
        Op.stop]
      (LX8266DMXOutput.new sampleConfig sampleRaw)).isSome = true)
  have hcap : sampleConfig.DMX_MAX_SLOTS < 2 ^ 16 := by decide
  have h := slot_count_bounds sampleConfig (LX8266DMXOutput.new sampleConfig sampleRaw) ef _
    hcfg hcap (Or.inl ⟨sampleRaw, rfl⟩) hef
  refine ⟨hcfg, hcap, ef, hef, h.2 ?_⟩
  intro n hn
  simp only [List.mem_cons, Op.setMaxSlots.injEq, List.mem_singleton, reduceCtorEq,
    List.not_mem_nil, or_false] at hn
  subst hn
  decide

/-- C4 as stated fails: `setMaxSlots` has no upper clamp, so after
`setMaxSlots(513)` on the default engine the slot count is 513, above
`DMX_MAX_SLOTS = 512`; and after `setMaxSlots(65536)`, of which the 16 bits of
`_slots` keep 0, it is below `DMX_MIN_SLOTS = 24`. -/
theorem slot_count_bounds_counterexample :
    (∃ e, runOps sampleConfig [Op.setMaxSlots 513]
        (LX8266DMXOutput.new sampleConfig sampleRaw) = some e ∧
      e._slots = 513 ∧
      ¬ (sampleConfig.DMX_MIN_SLOTS ≤ e._slots ∧ e._slots ≤ sampleConfig.DMX_MAX_SLOTS)) ∧
    (∃ e, runOps sampleConfig [Op.setMaxSlots 65536]
        (LX8266DMXOutput.new sampleConfig sampleRaw) = some e ∧
      e._slots = 0 ∧
      ¬ (sampleConfig.DMX_MIN_SLOTS ≤ e._slots ∧ e._slots ≤ sampleConfig.DMX_MAX_SLOTS)) :=
  ⟨⟨_, rfl, by decide, by decide⟩, ⟨_, rfl, by decide, by decide⟩⟩

/-- C5: on an engine whose lifecycle flag is `ISR_ENABLED`, `start` changes
nothing, neither a member field nor a UART register; hence `start` after
`start` is a single `start`. -/
theorem start_is_noop_when_enabled (cfg : Config) (e : LX8266DMXOutput)
    (h : e._interrupt_status = ISR_ENABLED) :
    LX8266DMXOutput.start cfg e = e ∧
    (LX8266DMXOutput.start cfg e)._dmx_state = e._dmx_state ∧
    (LX8266DMXOutput.start cfg e)._idle_count = e._idle_count ∧
    (LX8266DMXOutput.start cfg e)._current_slot = e._current_slot ∧
    (LX8266DMXOutput.start cfg e)._slots = e._slots ∧
    (LX8266DMXOutput.start cfg e)._dmxData = e._dmxData ∧
    (LX8266DMXOutput.start cfg e)._interrupt_status = e._interrupt_status ∧
    (LX8266DMXOutput.start cfg e).hw.USD = e.hw.USD ∧
    (LX8266DMXOutput.start cfg e).hw.USC0 = e.hw.USC0 ∧
    ∀ e0 : LX8266DMXOutput,
      LX8266DMXOutput.start cfg (LX8266DMXOutput.start cfg e0) =
        LX8266DMXOutput.start cfg e0 := by
  have hnoop : ∀ x : LX8266DMXOutput, x._interrupt_status = ISR_ENABLED →
      LX8266DMXOutput.start cfg x = x := by
    intro x hx
    simp [LX8266DMXOutput.start, hx]
  have he := hnoop e h
  refine ⟨he, ?_, ?_, ?_, ?_, ?_, ?_, ?_, ?_, ?_⟩
  all_goals try rw [he]
  intro e0
  by_cases h0 : e0._interrupt_status = ISR_ENABLED
  · rw [hnoop e0 h0, hnoop e0 h0]
  · apply hnoop
    simp [LX8266DMXOutput.start, h0]

/-- C5, at a concrete input: the default engine under `sampleConfig`, started
once. -/
theorem start_is_noop_when_enabled_witness :
    (LX8266DMXOutput.start sampleConfig
      (LX8266DMXOutput.new sampleConfig sampleRaw))._interrupt_status = ISR_ENABLED ∧
    LX8266DMXOutput.start sampleConfig
        (LX8266DMXOutput.start sampleConfig (LX8266DMXOutput.new sampleConfig sampleRaw)) =
      LX8266DMXOutput.start sampleConfig (LX8266DMXOutput.new sampleConfig sampleRaw) :=
  ⟨by decide,
    (start_is_noop_when_enabled sampleConfig
      (LX8266DMXOutput.start sampleConfig (LX8266DMXOutput.new sampleConfig sampleRaw))
      (by decide)).1⟩

/-- C6: whatever the engine was doing, `stop` followed by `start` leaves it in
`DMX_STATE_IDLE` with the idle counter at zero and the lifecycle flag
`ISR_ENABLED`, the divisor register set for `DMX_DATA_BAUD` and the format
register holding `FORMAT_8N2`.  The FIFO reset bit that `uart_tx_flush` pulses
must not be one of the bits of `FORMAT_8N2`. -/
theorem stop_then_start_resets (cfg : Config) (e : LX8266DMXOutput)
    (hrst : FORMAT_8N2.testBit cfg.UCTXRST = false) :
    (LX8266DMXOutput.start cfg (LX8266DMXOutput.stop cfg e))._dmx_state = DMX_STATE_IDLE ∧
    (LX8266DMXOutput.start cfg (LX8266DMXOutput.stop cfg e))._idle_count = 0 ∧
    (LX8266DMXOutput.start cfg (LX8266DMXOutput.stop cfg e))._interrupt_status =
      ISR_ENABLED ∧
    (LX8266DMXOutput.start cfg (LX8266DMXOutput.stop cfg e)).hw.USD =
      cfg.ESP8266_CLOCK / DMX_DATA_BAUD ∧
    (LX8266DMXOutput.start cfg (LX8266DMXOutput.stop cfg e)).hw.USC0 = FORMAT_8N2 := by
  have hoff : (LX8266DMXOutput.stop cfg e)._interrupt_status ≠ ISR_ENABLED := by
    simp [LX8266DMXOutput.stop, ISR_DISABLED, ISR_ENABLED]
  rw [LX8266DMXOutput.start_eq cfg _ hoff]
  refine ⟨rfl, rfl, rfl, ?_, ?_⟩
  · simp [uart_init_tx, uart_enable_tx_interrupt, uart_tx_flush, uart_set_baudrate, pinMode]
  · have hf := flush_pulse FORMAT_8N2 cfg.UCTXRST (by decide) hrst
    simpa [uart_init_tx, uart_enable_tx_interrupt, uart_tx_flush, uart_set_baudrate, pinMode,
      FORMAT_8N2] using hf

/-- C6, at a concrete input: `sampleConfig`, whose FIFO reset bit is bit 18,
and an engine stopped in the middle of a frame. -/
theorem stop_then_start_resets_witness :
    FORMAT_8N2.testBit sampleConfig.UCTXRST = false ∧
    (LX8266DMXOutput.start sampleConfig
      (LX8266DMXOutput.stop sampleConfig
        { sampleRaw with _dmx_state := DMX_STATE_DATA, _interrupt_status := ISR_ENABLED }
      ))._dmx_state = DMX_STATE_IDLE :=
  ⟨by decide,
    (stop_then_start_resets sampleConfig
      { sampleRaw with _dmx_state := DMX_STATE_DATA, _interrupt_status := ISR_ENABLED }
      (by decide)).1⟩

/-- C7: let a frame start on the slot count `N`, and let `k ≤ N` be an index
inside the buffer and `v` a byte; the frame sends the indices `0`, ...,
`max N 1` in `max N 1 + 99` events.  (1) If `setSlot(k, v)` is called after
`j ≤ 98 + k` events of the frame, that is before the event that sends index
`k`, the frame sends `v` at position `k` (and at the other positions what it
would have sent).  (2) If it is called in the data phase after index `k` has
gone out (`99 + k ≤ j ≤ 98 + max N 1`, the cursor is above `k`), the frame
sends the bytes it sends without the call, and the next frame sends `v` at
position `k`. -/
theorem setSlot_takes_effect_when_sent (cfg : Config) (s : LX8266DMXOutput) (N k v : Nat)
    (hs : s._dmx_state = DMX_STATE_IDLE) (hi : s._idle_count = 0) (hsl : s._slots = N)
    (hk : k ≤ N) (hkl : k < s._dmxData.length) (hv : v < 256) :
    (∀ j, j ≤ 98 + k →
      ∃ ej1, LX8266DMXOutput.setSlot (LX8266DMXOutput.irqs cfg j s) (k : Int) v = some ej1 ∧
        (LX8266DMXOutput.irqs cfg (max N 1 + 99 - j) ej1)._dmx_state = DMX_STATE_IDLE ∧
        (LX8266DMXOutput.irqs cfg (max N 1 + 99 - j) ej1).hw.USF =
          s.hw.USF ++ LX8266DMXOutput.breakWrite cfg ::
            (List.range (max N 1 + 1)).map (fun i =>
              LX8266DMXOutput.dataWrite cfg
                (if i = k then v else LX8266DMXOutput.readSlot s i))) ∧
    (∀ j, 99 + k ≤ j → j ≤ 98 + max N 1 →
      (LX8266DMXOutput.irqs cfg j s)._dmx_state = DMX_STATE_DATA ∧
      k < (LX8266DMXOutput.irqs cfg j s)._current_slot ∧
      ∃ ej1, LX8266DMXOutput.setSlot (LX8266DMXOutput.irqs cfg j s) (k : Int) v = some ej1 ∧
        (LX8266DMXOutput.irqs cfg (max N 1 + 99 - j) ej1)._dmx_state = DMX_STATE_IDLE ∧
        (LX8266DMXOutput.irqs cfg (max N 1 + 99 - j) ej1).hw.USF =
          (LX8266DMXOutput.irqs cfg (max N 1 + 99) s).hw.USF ∧
        (LX8266DMXOutput.irqs cfg (max N 1 + 99) s).hw.USF =
          s.hw.USF ++ LX8266DMXOutput.breakWrite cfg ::
            (List.range (max N 1 + 1)).map (fun i =>
              LX8266DMXOutput.dataWrite cfg (LX8266DMXOutput.readSlot s i)) ∧
        (LX8266DMXOutput.irqs cfg (max N 1 + 99)
            (LX8266DMXOutput.irqs cfg (max N 1 + 99 - j) ej1)).hw.USF =
          (LX8266DMXOutput.irqs cfg (max N 1 + 99 - j) ej1).hw.USF ++
            LX8266DMXOutput.breakWrite cfg ::
              (List.range (max N 1 + 1)).map (fun i =>
                LX8266DMXOutput.dataWrite cfg
                  (if i = k then v else LX8266DMXOutput.readSlot s i))) := by
  subst hsl
  have hL : LX8266DMXOutput.lastSlot s = max s._slots 1 := rfl
  rw [← hL]
  have hkL : k ≤ LX8266DMXOutput.lastSlot s := by rw [hL]; omega
  constructor
  · intro j hj
    have hjL : j ≤ LX8266DMXOutput.lastSlot s + 99 := by omega
    have hf := LX8266DMXOutput.frameAt_facts cfg s j hs hjL
    rw [LX8266DMXOutput.irqs_frameAt cfg s j hs hi hjL]
    refine ⟨_, LX8266DMXOutput.setSlot_eq _ k v (by rw [hf.2.1]; exact hkl) hv, ?_⟩
    rw [LX8266DMXOutput.frameAt_withSlot cfg s k v j hj hkL]
    have hrest := LX8266DMXOutput.irqs_rest_of_frame cfg (LX8266DMXOutput.withSlot s k v) j
      hs hi hjL
    rw [show LX8266DMXOutput.lastSlot (LX8266DMXOutput.withSlot s k v) =
      LX8266DMXOutput.lastSlot s from rfl] at hrest
    rw [hrest]
    refine ⟨rfl, ?_⟩
    rw [LX8266DMXOutput.frameEnd_USF, LX8266DMXOutput.sentBytes_store cfg s k v _ hkl]
    rfl
  · intro j hj1 hj2
    have hjL : j ≤ LX8266DMXOutput.lastSlot s + 99 := by omega
    have hf := LX8266DMXOutput.frameAt_facts cfg s j hs hjL
    have hfa : LX8266DMXOutput.frameAt cfg s j = LX8266DMXOutput.atData cfg s (j - 98) := by
      unfold LX8266DMXOutput.frameAt
      simp only [DATA_END_WAIT, BREAK_SENT_WAIT]
      split_ifs <;> first | rfl | omega
    have hrest := LX8266DMXOutput.run_data_after_store cfg s (j - 98) k v (by omega)
      (by omega)
    rw [show LX8266DMXOutput.lastSlot s + 1 - (j - 98) =
      LX8266DMXOutput.lastSlot s + 99 - j by omega] at hrest
    have hnext := LX8266DMXOutput.irqs_frameAt cfg
      (LX8266DMXOutput.withSlot (LX8266DMXOutput.frameEnd cfg s) k v)
      (LX8266DMXOutput.lastSlot s + 99) rfl rfl (le_refl _)
    have hE : LX8266DMXOutput.frameAt cfg
        (LX8266DMXOutput.withSlot (LX8266DMXOutput.frameEnd cfg s) k v)
        (LX8266DMXOutput.lastSlot s + 99) =
        LX8266DMXOutput.frameEnd cfg
          (LX8266DMXOutput.withSlot (LX8266DMXOutput.frameEnd cfg s) k v) :=
      LX8266DMXOutput.frameAt_end cfg
        (LX8266DMXOutput.withSlot (LX8266DMXOutput.frameEnd cfg s) k v)
    rw [hE] at hnext
    have hwhole := LX8266DMXOutput.irqs_frameAt cfg s (LX8266DMXOutput.lastSlot s + 99) hs hi
      (le_refl _)
    rw [LX8266DMXOutput.frameAt_end] at hwhole
    rw [LX8266DMXOutput.irqs_frameAt cfg s j hs hi hjL]
    refine ⟨hf.2.2.2.2.2.2.1.mpr ⟨by omega, by omega⟩, ?_, _,
      LX8266DMXOutput.setSlot_eq _ k v (by rw [hf.2.1]; exact hkl) hv, ?_⟩
    · rw [hf.2.2.2.2.2.2.2 (by omega)]; omega
    · rw [hfa, hrest, hwhole, hnext]
      refine ⟨rfl, rfl, rfl, ?_⟩
      rw [LX8266DMXOutput.frameEnd_USF]
      have hsb := LX8266DMXOutput.sentBytes_store cfg s k v
        (LX8266DMXOutput.lastSlot s + 1) hkl
      exact congrArg (fun l => (LX8266DMXOutput.withSlot
        (LX8266DMXOutput.frameEnd cfg s) k v).hw.USF ++
          LX8266DMXOutput.breakWrite cfg :: l) hsb

set_option maxRecDepth 100000 in
/-- C7, at a concrete input: the example engine (slot count 3), a store of 99
to index 2 after 101 events, when index 2 has just gone out. -/
theorem setSlot_takes_effect_when_sent_witness :
    ((LX8266DMXOutput.start sampleConfig exampleEngine)._dmx_state = DMX_STATE_IDLE ∧
      (LX8266DMXOutput.start sampleConfig exampleEngine)._idle_count = 0 ∧
      (LX8266DMXOutput.start sampleConfig exampleEngine)._slots = 3 ∧ 2 ≤ 3 ∧
      2 < (LX8266DMXOutput.start sampleConfig exampleEngine)._dmxData.length ∧ 99 < 256) ∧
    ∃ ej1,
      LX8266DMXOutput.setSlot
        (LX8266DMXOutput.irqs sampleConfig 101
          (LX8266DMXOutput.start sampleConfig exampleEngine)) 2 99 = some ej1 ∧
      (LX8266DMXOutput.irqs sampleConfig (max 3 1 + 99 - 101) ej1)._dmx_state =
        DMX_STATE_IDLE ∧
      (LX8266DMXOutput.irqs sampleConfig (max 3 1 + 99 - 101) ej1).hw.USF =
        (LX8266DMXOutput.irqs sampleConfig (max 3 1 + 99)
          (LX8266DMXOutput.start sampleConfig exampleEngine)).hw.USF := by
  have h4 : (LX8266DMXOutput.start sampleConfig exampleEngine)._dmx_state =
      DMX_STATE_IDLE := by decide
  have h5 : (LX8266DMXOutput.start sampleConfig exampleEngine)._idle_count = 0 := by decide
  have h6 : (LX8266DMXOutput.start sampleConfig exampleEngine)._slots = 3 := by decide
  have h7 : (2 : Nat) ≤ 3 := by decide
  have h8 : 2 < (LX8266DMXOutput.start sampleConfig exampleEngine)._dmxData.length := by
    decide
  have h9 : (99 : Nat) < 256 := by decide
  obtain ⟨_, _, ej1, q1, q2, q3, _⟩ :=
    (setSlot_takes_effect_when_sent sampleConfig
      (LX8266DMXOutput.start sampleConfig exampleEngine) 3 2 99 h4 h5 h6 h7 h8 h9).2
      101 (by decide) (by decide)
  exact ⟨⟨h4, h5, h6, h7, h8, h9⟩, ej1, q1, q2, q3⟩

/-- C8, amended: for every integer `count`, `setMaxSlots(count)` stores the
low 16 bits of `max(count, DMX_MIN_SLOTS)` in `_slots` and changes no other
member field and no register.  When `max(count, DMX_MIN_SLOTS)` is at most
65535 the stored slot count is that value: it is at least `DMX_MIN_SLOTS`, and
it is `count` when `count ≥ DMX_MIN_SLOTS`. -/
theorem setMaxSlots_stores_max (cfg : Config) (e : LX8266DMXOutput) (count : Int) :
    ((LX8266DMXOutput.setMaxSlots cfg e count)._slots : Int) =
      max count (cfg.DMX_MIN_SLOTS : Int) % 2 ^ 16 ∧
    (max count (cfg.DMX_MIN_SLOTS : Int) < 2 ^ 16 →
      ((LX8266DMXOutput.setMaxSlots cfg e count)._slots : Int) =
        max count (cfg.DMX_MIN_SLOTS : Int) ∧
      cfg.DMX_MIN_SLOTS ≤ (LX8266DMXOutput.setMaxSlots cfg e count)._slots ∧
      ((cfg.DMX_MIN_SLOTS : Int) ≤ count →
        ((LX8266DMXOutput.setMaxSlots cfg e count)._slots : Int) = count)) ∧
    (LX8266DMXOutput.setMaxSlots cfg e count)._dmx_state = e._dmx_state ∧
    (LX8266DMXOutput.setMaxSlots cfg e count)._idle_count = e._idle_count ∧
    (LX8266DMXOutput.setMaxSlots cfg e count)._current_slot = e._current_slot ∧
    (LX8266DMXOutput.setMaxSlots cfg e count)._dmxData = e._dmxData ∧
    (LX8266DMXOutput.setMaxSlots cfg e count)._interrupt_status = e._interrupt_status ∧
    (LX8266DMXOutput.setMaxSlots cfg e count).hw = e.hw := by
  refine ⟨slots_after_setMaxSlots cfg e count, fun hfit => ?_, rfl, rfl, rfl, rfl, rfl, rfl⟩
  have h1 := slots_after_setMaxSlots_of_lt cfg e count hfit
  refine ⟨h1, ?_, ?_⟩
  · have h2 : (cfg.DMX_MIN_SLOTS : Int) ≤
        ((LX8266DMXOutput.setMaxSlots cfg e count)._slots : Int) := by
      rw [h1]; exact le_max_right _ _
    exact Int.ofNat_le.mp h2
  · intro hc
    rw [h1, max_eq_left hc]

/-- C8, at concrete inputs: under `sampleConfig`, whose minimum is 24,
`setMaxSlots(100)` on the default engine stores 100 and `setMaxSlots(5)`
stores 24. -/
theorem setMaxSlots_stores_max_witness :
    max (100 : Int) (sampleConfig.DMX_MIN_SLOTS : Int) < 2 ^ 16 ∧
    ((LX8266DMXOutput.setMaxSlots sampleConfig
      (LX8266DMXOutput.new sampleConfig sampleRaw) 100)._slots : Int) = 100 ∧
    max (5 : Int) (sampleConfig.DMX_MIN_SLOTS : Int) < 2 ^ 16 ∧
    ((LX8266DMXOutput.setMaxSlots sampleConfig
      (LX8266DMXOutput.new sampleConfig sampleRaw) 5)._slots : Int) = 24 := by
  have h100 : max (100 : Int) (sampleConfig.DMX_MIN_SLOTS : Int) < 2 ^ 16 := by decide
  have h5 : max (5 : Int) (sampleConfig.DMX_MIN_SLOTS : Int) < 2 ^ 16 := by decide
  exact ⟨h100,
    ((setMaxSlots_stores_max sampleConfig (LX8266DMXOutput.new sampleConfig sampleRaw)
      100).2.1 h100).2.2 (by decide),
    h5,
    ((setMaxSlots_stores_max sampleConfig (LX8266DMXOutput.new sampleConfig sampleRaw)
      5).2.1 h5).1⟩

/-- C8 as stated fails: under `sampleConfig`, `setMaxSlots(65536)` on the
default engine leaves the slot count 0, which is below `DMX_MIN_SLOTS = 24` and
is not 65536; `setMaxSlots(65560)` leaves 24. -/
theorem setMaxSlots_stores_max_counterexample :
    (LX8266DMXOutput.setMaxSlots sampleConfig
      (LX8266DMXOutput.new sampleConfig sampleRaw) 65536)._slots = 0 ∧
    ¬ (sampleConfig.DMX_MIN_SLOTS ≤ (LX8266DMXOutput.setMaxSlots sampleConfig
      (LX8266DMXOutput.new sampleConfig sampleRaw) 65536)._slots) ∧
    ¬ (((LX8266DMXOutput.setMaxSlots sampleConfig
      (LX8266DMXOutput.new sampleConfig sampleRaw) 65536)._slots : Int) =
        max 65536 (sampleConfig.DMX_MIN_SLOTS : Int)) ∧
    (LX8266DMXOutput.setMaxSlots sampleConfig
      (LX8266DMXOutput.new sampleConfig sampleRaw) 65560)._slots = 24 ∧
    ¬ (((LX8266DMXOutput.setMaxSlots sampleConfig
      (LX8266DMXOutput.new sampleConfig sampleRaw) 65560)._slots : Int) = 65560) := by
  decide

/-- C9, amended: a `setMaxSlots(count)` made while a frame is in its data
phase takes effect in that frame.  With `M` the slot count the call stores (the
low 16 bits of `max(count, DMX_MIN_SLOTS)`, which is `max(count, DMX_MIN_SLOTS)`
itself when that is at most 65535) and the cursor at `c`, the handler stays in
`DMX_STATE_DATA` and sends the slots from `c` on until the cursor exceeds `M`:
the frame ends in `DMX_STATE_IDLE` with the cursor at `max(M, c) + 1`, whatever
the slot count was when the data phase began.  `M` stays the slot count for the
frames that follow. -/
theorem setMaxSlots_acts_mid_frame (cfg : Config) (e : LX8266DMXOutput) (count : Int)
    (hs : e._dmx_state = DMX_STATE_DATA) :
    (∀ ev ∈ (LX8266DMXOutput.run cfg
        (max (LX8266DMXOutput.setMaxSlots cfg e count)._slots e._current_slot + 1 -
          e._current_slot)
        (LX8266DMXOutput.setMaxSlots cfg e count)).1, ev.state = DMX_STATE_DATA) ∧
    (LX8266DMXOutput.run cfg
        (max (LX8266DMXOutput.setMaxSlots cfg e count)._slots e._current_slot + 1 -
          e._current_slot)
        (LX8266DMXOutput.setMaxSlots cfg e count)).1.map (fun ev => ev.writes) =
      (List.range' e._current_slot
        (max (LX8266DMXOutput.setMaxSlots cfg e count)._slots e._current_slot + 1 -
          e._current_slot)).map (fun i =>
            [{ USD := e.hw.USD, USC0 := e.hw.USC0, value := LX8266DMXOutput.readSlot e i }]) ∧
    (LX8266DMXOutput.irqs cfg
        (max (LX8266DMXOutput.setMaxSlots cfg e count)._slots e._current_slot + 1 -
          e._current_slot)
        (LX8266DMXOutput.setMaxSlots cfg e count))._dmx_state = DMX_STATE_IDLE ∧
    (LX8266DMXOutput.irqs cfg
        (max (LX8266DMXOutput.setMaxSlots cfg e count)._slots e._current_slot + 1 -
          e._current_slot)
        (LX8266DMXOutput.setMaxSlots cfg e count))._current_slot =
      max (LX8266DMXOutput.setMaxSlots cfg e count)._slots e._current_slot + 1 ∧
    (LX8266DMXOutput.irqs cfg
        (max (LX8266DMXOutput.setMaxSlots cfg e count)._slots e._current_slot + 1 -
          e._current_slot)
        (LX8266DMXOutput.setMaxSlots cfg e count))._slots =
      (LX8266DMXOutput.setMaxSlots cfg e count)._slots ∧
    ((LX8266DMXOutput.setMaxSlots cfg e count)._slots : Int) =
      max count (cfg.DMX_MIN_SLOTS : Int) % 2 ^ 16 ∧
    (max count (cfg.DMX_MIN_SLOTS : Int) < 2 ^ 16 →
      ((LX8266DMXOutput.setMaxSlots cfg e count)._slots : Int) =
        max count (cfg.DMX_MIN_SLOTS : Int)) := by
  have h := LX8266DMXOutput.run_data_to_end cfg (LX8266DMXOutput.setMaxSlots cfg e count) hs
  have hq := LX8266DMXOutput.irqs_of_run cfg _ _ _ _ h
  have h1 : (LX8266DMXOutput.setMaxSlots cfg e count)._current_slot = e._current_slot := rfl
  rw [h1] at h hq
  rw [h, hq]
  refine ⟨?_, ?_, rfl, rfl, rfl, slots_after_setMaxSlots cfg e count,
    slots_after_setMaxSlots_of_lt cfg e count⟩
  · intro ev hev
    simp only [List.mem_map] at hev
    obtain ⟨b, _, rfl⟩ := hev
    rfl
  · rw [List.map_map]
    rfl

set_option maxRecDepth 100000 in
/-- C9, at concrete inputs: the default engine under `sampleConfig`, 198
events into its first frame (cursor at 100), and a new slot count of 24, which
is below the cursor: one more slot goes out and the frame ends.  The same
happens with `setMaxSlots(65560)`, which stores 24 as well. -/
theorem setMaxSlots_acts_mid_frame_witness :
    (LX8266DMXOutput.irqs sampleConfig 198
      (LX8266DMXOutput.start sampleConfig
        (LX8266DMXOutput.new sampleConfig sampleRaw)))._dmx_state = DMX_STATE_DATA ∧
    (LX8266DMXOutput.irqs sampleConfig 198
      (LX8266DMXOutput.start sampleConfig
        (LX8266DMXOutput.new sampleConfig sampleRaw)))._current_slot = 100 ∧
    (LX8266DMXOutput.irqs sampleConfig 1
      (LX8266DMXOutput.setMaxSlots sampleConfig
        (LX8266DMXOutput.irqs sampleConfig 198
          (LX8266DMXOutput.start sampleConfig (LX8266DMXOutput.new sampleConfig sampleRaw)))
        24))._dmx_state = DMX_STATE_IDLE ∧
    (LX8266DMXOutput.setMaxSlots sampleConfig
      (LX8266DMXOutput.irqs sampleConfig 198
        (LX8266DMXOutput.start sampleConfig (LX8266DMXOutput.new sampleConfig sampleRaw)))
      65560)._slots = 24 ∧
    (LX8266DMXOutput.irqs sampleConfig 1
      (LX8266DMXOutput.setMaxSlots sampleConfig
        (LX8266DMXOutput.irqs sampleConfig 198
          (LX8266DMXOutput.start sampleConfig (LX8266DMXOutput.new sampleConfig sampleRaw)))
        65560))._dmx_state = DMX_STATE_IDLE := by
  have hq := LX8266DMXOutput.irqs_frameAt sampleConfig
    (LX8266DMXOutput.start sampleConfig (LX8266DMXOutput.new sampleConfig sampleRaw)) 198
    (by decide) (by decide) (by decide)
  have h1 : (LX8266DMXOutput.irqs sampleConfig 198
      (LX8266DMXOutput.start sampleConfig
        (LX8266DMXOutput.new sampleConfig sampleRaw)))._dmx_state = DMX_STATE_DATA := by
    rw [hq]; decide
  have h2 : (LX8266DMXOutput.irqs sampleConfig 198
      (LX8266DMXOutput.start sampleConfig
        (LX8266DMXOutput.new sampleConfig sampleRaw)))._current_slot = 100 := by
    rw [hq]; decide
  have h := (setMaxSlots_acts_mid_frame sampleConfig
    (LX8266DMXOutput.irqs sampleConfig 198
      (LX8266DMXOutput.start sampleConfig (LX8266DMXOutput.new sampleConfig sampleRaw)))
    24 h1).2.2.1
  have hw := (setMaxSlots_acts_mid_frame sampleConfig
    (LX8266DMXOutput.irqs sampleConfig 198
      (LX8266DMXOutput.start sampleConfig (LX8266DMXOutput.new sampleConfig sampleRaw)))
    65560 h1).2.2.1
  rw [h2] at h hw
  exact ⟨h1, h2, h, rfl, hw⟩

set_option maxRecDepth 100000 in
/-- C9 as stated fails: the default engine under `sampleConfig` enters the
data phase of its first frame with the slot count 512; `setMaxSlots(24)` after
108 events (cursor at 10) ends that frame 15 events later with the cursor at
25, so the frame carries 24 data slots, not 512. -/
theorem setMaxSlots_acts_mid_frame_counterexample :
    (LX8266DMXOutput.irqs sampleConfig 99
      (LX8266DMXOutput.start sampleConfig
        (LX8266DMXOutput.new sampleConfig sampleRaw)))._dmx_state = DMX_STATE_DATA ∧
    (LX8266DMXOutput.irqs sampleConfig 99
      (LX8266DMXOutput.start sampleConfig
        (LX8266DMXOutput.new sampleConfig sampleRaw)))._slots = 512 ∧
    (LX8266DMXOutput.irqs sampleConfig 108
      (LX8266DMXOutput.start sampleConfig
        (LX8266DMXOutput.new sampleConfig sampleRaw)))._dmx_state = DMX_STATE_DATA ∧
    (LX8266DMXOutput.irqs sampleConfig 108
      (LX8266DMXOutput.start sampleConfig
        (LX8266DMXOutput.new sampleConfig sampleRaw)))._current_slot = 10 ∧
    (LX8266DMXOutput.irqs sampleConfig 15
      (LX8266DMXOutput.setMaxSlots sampleConfig
        (LX8266DMXOutput.irqs sampleConfig 108
          (LX8266DMXOutput.start sampleConfig (LX8266DMXOutput.new sampleConfig sampleRaw)))
        24))._dmx_state = DMX_STATE_IDLE ∧
    (LX8266DMXOutput.irqs sampleConfig 15
      (LX8266DMXOutput.setMaxSlots sampleConfig
        (LX8266DMXOutput.irqs sampleConfig 108
          (LX8266DMXOutput.start sampleConfig (LX8266DMXOutput.new sampleConfig sampleRaw)))
        24))._current_slot = 25 := by
  have q99 := LX8266DMXOutput.irqs_frameAt sampleConfig
    (LX8266DMXOutput.start sampleConfig (LX8266DMXOutput.new sampleConfig sampleRaw)) 99
    (by decide) (by decide) (by decide)
  have q108 := LX8266DMXOutput.irqs_frameAt sampleConfig
    (LX8266DMXOutput.start sampleConfig (LX8266DMXOutput.new sampleConfig sampleRaw)) 108
    (by decide) (by decide) (by decide)
  have hsD : (LX8266DMXOutput.setMaxSlots sampleConfig
      (LX8266DMXOutput.frameAt sampleConfig
        (LX8266DMXOutput.start sampleConfig (LX8266DMXOutput.new sampleConfig sampleRaw))
        108) 24)._dmx_state = DMX_STATE_DATA := by decide
  have hend := LX8266DMXOutput.irqs_of_run sampleConfig _ _ _ _
    (LX8266DMXOutput.run_data_to_end sampleConfig
      (LX8266DMXOutput.setMaxSlots sampleConfig
        (LX8266DMXOutput.frameAt sampleConfig
          (LX8266DMXOutput.start sampleConfig (LX8266DMXOutput.new sampleConfig sampleRaw))
          108) 24) hsD)
  have h5 : (LX8266DMXOutput.irqs sampleConfig 15
      (LX8266DMXOutput.setMaxSlots sampleConfig
        (LX8266DMXOutput.frameAt sampleConfig
          (LX8266DMXOutput.start sampleConfig (LX8266DMXOutput.new sampleConfig sampleRaw))
          108) 24))._dmx_state = DMX_STATE_IDLE :=
    congrArg (fun x => x._dmx_state) hend
  have h6 : (LX8266DMXOutput.irqs sampleConfig 15
      (LX8266DMXOutput.setMaxSlots sampleConfig
        (LX8266DMXOutput.frameAt sampleConfig
          (LX8266DMXOutput.start sampleConfig (LX8266DMXOutput.new sampleConfig sampleRaw))
          108) 24))._current_slot = 25 :=
    congrArg (fun x => x._current_slot) hend
  rw [q99, q108]
  exact ⟨by decide, by decide, by decide, by decide, h5, h6⟩

/-- C10: `stop` can be called in every state of the engine.  It leaves the
lifecycle flag `ISR_DISABLED`, the "TX FIFO empty" bit of the interrupt enable
register cleared and the UART interrupt disabled; it leaves `_slots`, the
buffer, `_dmx_state`, the cursor and the idle counter as they were; and a
second `stop` changes nothing more. -/
theorem stop_is_safe_and_idempotent (cfg : Config) (e : LX8266DMXOutput) :
    (LX8266DMXOutput.stop cfg e)._interrupt_status = ISR_DISABLED ∧
    (LX8266DMXOutput.stop cfg e).hw.USIE.testBit cfg.UIFE = false ∧
    (LX8266DMXOutput.stop cfg e).hw.intr_enabled = false ∧
    (LX8266DMXOutput.stop cfg e)._slots = e._slots ∧
    (LX8266DMXOutput.stop cfg e)._dmxData = e._dmxData ∧
    (LX8266DMXOutput.stop cfg e)._dmx_state = e._dmx_state ∧
    (LX8266DMXOutput.stop cfg e)._current_slot = e._current_slot ∧
    (LX8266DMXOutput.stop cfg e)._idle_count = e._idle_count ∧
    LX8266DMXOutput.stop cfg (LX8266DMXOutput.stop cfg e) = LX8266DMXOutput.stop cfg e ∧
    ∀ raw : LX8266DMXOutput,
      (LX8266DMXOutput.stop cfg (LX8266DMXOutput.new cfg raw))._interrupt_status =
        ISR_DISABLED := by
  refine ⟨rfl, ?_, rfl, rfl, rfl, rfl, rfl, rfl, ?_, fun _ => rfl⟩
  · exact and_not32_bit32_testBit e.hw.USIE cfg.UIFE
  · simp [LX8266DMXOutput.stop, uart_uninit_tx, uart_disable_tx_interrupt, pinMode,
      Nat.and_assoc]

/-- C11: both constructors leave the lifecycle flag `ISR_DISABLED` and a slot
buffer of `DMX_MAX_SLOTS + 1` entries that holds 0 at every index from 0 (the
start code) to `DMX_MAX_SLOTS`.  The default constructor sets the slot count to
`DMX_MAX_SLOTS`; the (pin, slots) constructor sets it to its argument `slots`,
a 16-bit value. -/
theorem constructors_zero_buffer_and_disabled (cfg : Config) (raw : LX8266DMXOutput)
    (pin slots : Nat) (hslots : slots < 2 ^ 16) :
    ((LX8266DMXOutput.new cfg raw)._interrupt_status = ISR_DISABLED ∧
      (LX8266DMXOutput.new cfg raw)._dmxData.length = cfg.DMX_MAX_SLOTS + 1 ∧
      (∀ i, i ≤ cfg.DMX_MAX_SLOTS → (LX8266DMXOutput.new cfg raw)._dmxData[i]? = some 0) ∧
      (LX8266DMXOutput.new cfg raw)._dmxData[0]? = some 0 ∧
      (LX8266DMXOutput.new cfg raw)._slots = cfg.DMX_MAX_SLOTS) ∧
    ((LX8266DMXOutput.newWithPin cfg raw pin slots)._interrupt_status = ISR_DISABLED ∧
      (LX8266DMXOutput.newWithPin cfg raw pin slots)._dmxData.length = cfg.DMX_MAX_SLOTS + 1 ∧
      (∀ i, i ≤ cfg.DMX_MAX_SLOTS →
        (LX8266DMXOutput.newWithPin cfg raw pin slots)._dmxData[i]? = some 0) ∧
      (LX8266DMXOutput.newWithPin cfg raw pin slots)._dmxData[0]? = some 0 ∧
      (LX8266DMXOutput.newWithPin cfg raw pin slots)._slots = slots) := by
  have hz : ∀ i, i ≤ cfg.DMX_MAX_SLOTS →
      (List.replicate (cfg.DMX_MAX_SLOTS + 1) (0 : Nat))[i]? = some 0 := by
    intro i hi
    rw [List.getElem?_replicate, if_pos (by omega)]
  refine ⟨⟨rfl, ?_, hz, hz 0 (Nat.zero_le _), rfl⟩,
    rfl, ?_, hz, hz 0 (Nat.zero_le _), Nat.mod_eq_of_lt hslots⟩
  · exact List.length_replicate _ _
  · exact List.length_replicate _ _

set_option maxRecDepth 100000 in
/-- C11, at a concrete input: under `sampleConfig`, the constructors run on
storage with arbitrary contents, the second one with pin 2 and 100 slots. -/
theorem constructors_zero_buffer_and_disabled_witness :
    (100 : Nat) < 2 ^ 16 ∧
    (LX8266DMXOutput.new sampleConfig sampleRaw)._interrupt_status = ISR_DISABLED ∧
    (LX8266DMXOutput.new sampleConfig sampleRaw)._dmxData = List.replicate 513 0 ∧
    (LX8266DMXOutput.new sampleConfig sampleRaw)._slots = 512 ∧
    (LX8266DMXOutput.newWithPin sampleConfig sampleRaw 2 100)._interrupt_status =
      ISR_DISABLED ∧
    (LX8266DMXOutput.newWithPin sampleConfig sampleRaw 2 100)._dmxData[512]? = some 0 ∧
    (LX8266DMXOutput.newWithPin sampleConfig sampleRaw 2 100)._slots = 100 := by
  have h := constructors_zero_buffer_and_disabled sampleConfig sampleRaw 2 100 (by decide)
  exact ⟨by decide, h.1.1, rfl, h.1.2.2.2.2, h.2.1, h.2.2.2.1 512 (by decide), h.2.2.2.2.2⟩

/-- C12: in one frame cycle (the `max(_slots, 1) + 99` events from
`DMX_STATE_IDLE` with the idle counter at zero) the handler finds
`DMX_STATE_BREAK_SENT` at `BREAK_SENT_WAIT + 1 = 71` events and
`DMX_STATE_IDLE` at `DATA_END_WAIT + 1 = 26` events, so more often the former
than the latter; and `BREAK_SENT_WAIT` is greater than `DATA_END_WAIT`. -/
theorem break_sent_events_exceed_idle_events (cfg : Config) (e : LX8266DMXOutput)
    (hs : e._dmx_state = DMX_STATE_IDLE) (hi : e._idle_count = 0) :
    ((LX8266DMXOutput.run cfg (max e._slots 1 + 99) e).1.map (fun ev => ev.state)).count
        DMX_STATE_BREAK_SENT = BREAK_SENT_WAIT + 1 ∧
    ((LX8266DMXOutput.run cfg (max e._slots 1 + 99) e).1.map (fun ev => ev.state)).count
        DMX_STATE_IDLE = DATA_END_WAIT + 1 ∧
    ((LX8266DMXOutput.run cfg (max e._slots 1 + 99) e).1.map (fun ev => ev.state)).count
        DMX_STATE_IDLE <
      ((LX8266DMXOutput.run cfg (max e._slots 1 + 99) e).1.map (fun ev => ev.state)).count
        DMX_STATE_BREAK_SENT ∧
    (LX8266DMXOutput.irqs cfg (max e._slots 1 + 99) e)._dmx_state = DMX_STATE_IDLE ∧
    DATA_END_WAIT < BREAK_SENT_WAIT := by
  have h := LX8266DMXOutput.run_frame cfg e hs hi
  have hL : LX8266DMXOutput.lastSlot e = max e._slots 1 := rfl
  rw [hL] at h
  have hc := count_cycle (DATA_END_WAIT + 1) (BREAK_SENT_WAIT + 1) (max e._slots 1)
  rw [LX8266DMXOutput.irqs_of_run cfg _ _ _ _ h, h, LX8266DMXOutput.frameEvents_states, hL,
    hc.1, hc.2]
  exact ⟨rfl, rfl, by decide, rfl, by decide⟩

/-- C12, at a concrete input: the default engine under `sampleConfig`, started;
its frame cycle has 512 + 99 events. -/
theorem break_sent_events_exceed_idle_events_witness :
    ((LX8266DMXOutput.start sampleConfig
        (LX8266DMXOutput.new sampleConfig sampleRaw))._dmx_state = DMX_STATE_IDLE ∧
      (LX8266DMXOutput.start sampleConfig
        (LX8266DMXOutput.new sampleConfig sampleRaw))._idle_count = 0) ∧
    ((LX8266DMXOutput.run sampleConfig 611
        (LX8266DMXOutput.start sampleConfig
          (LX8266DMXOutput.new sampleConfig sampleRaw))).1.map (fun ev => ev.state)).count
      DMX_STATE_BREAK_SENT = 71 ∧
    ((LX8266DMXOutput.run sampleConfig 611
        (LX8266DMXOutput.start sampleConfig
          (LX8266DMXOutput.new sampleConfig sampleRaw))).1.map (fun ev => ev.state)).count
      DMX_STATE_IDLE = 26 := by
  have h1 : (LX8266DMXOutput.start sampleConfig
      (LX8266DMXOutput.new sampleConfig sampleRaw))._dmx_state = DMX_STATE_IDLE := by decide
  have h2 : (LX8266DMXOutput.start sampleConfig
      (LX8266DMXOutput.new sampleConfig sampleRaw))._idle_count = 0 := by decide
  have h := break_sent_events_exceed_idle_events sampleConfig
    (LX8266DMXOutput.start sampleConfig (LX8266DMXOutput.new sampleConfig sampleRaw)) h1 h2
  exact ⟨⟨h1, h2⟩, h.1, h.2.1⟩

set_option maxRecDepth 100000 in
/-- C13: the code at the entry to `DMX_STATE_BREAK_SENT`.  For every engine put
there with the idle counter at zero, the next `BREAK_SENT_WAIT + 1 = 71` events
are all handled in `DMX_STATE_BREAK_SENT` and write nothing; the state is still
`DMX_STATE_BREAK_SENT` after 60 of them, and `DMX_STATE_START` after the 71st
only.  So it is with the default engine under `sampleConfig`: 27 events after
`start` the break byte is out and the idle counter is zero, 60 and 70 events
later the state is still `DMX_STATE_BREAK_SENT`, 71 events later it is
`DMX_STATE_START`. -/
theorem break_sent_wait_events :
    (∀ (cfg : Config) (e : LX8266DMXOutput),
      (LX8266DMXOutput.run cfg (BREAK_SENT_WAIT + 1)
          { e with _dmx_state := DMX_STATE_BREAK_SENT, _idle_count := 0 }).1 =
        List.replicate 71 { state := DMX_STATE_BREAK_SENT, writes := [] } ∧
      (∀ j, j ≤ BREAK_SENT_WAIT → (LX8266DMXOutput.irqs cfg j
          { e with _dmx_state := DMX_STATE_BREAK_SENT, _idle_count := 0 })._dmx_state =
        DMX_STATE_BREAK_SENT) ∧
      (LX8266DMXOutput.irqs cfg 60
          { e with _dmx_state := DMX_STATE_BREAK_SENT, _idle_count := 0 })._dmx_state =
        DMX_STATE_BREAK_SENT ∧
      (LX8266DMXOutput.irqs cfg (BREAK_SENT_WAIT + 1)
          { e with _dmx_state := DMX_STATE_BREAK_SENT, _idle_count := 0 })._dmx_state =
        DMX_STATE_START) ∧
    (LX8266DMXOutput.irqs sampleConfig 27
        (LX8266DMXOutput.start sampleConfig
          (LX8266DMXOutput.new sampleConfig sampleRaw)))._dmx_state = DMX_STATE_BREAK_SENT ∧
    (LX8266DMXOutput.irqs sampleConfig 27
        (LX8266DMXOutput.start sampleConfig
          (LX8266DMXOutput.new sampleConfig sampleRaw)))._idle_count = 0 ∧
    (LX8266DMXOutput.irqs sampleConfig 27
        (LX8266DMXOutput.start sampleConfig
          (LX8266DMXOutput.new sampleConfig sampleRaw))).hw.USF =
      [{ USD := 888, USC0 := FORMAT_8E1, value := 0 }] ∧
    (LX8266DMXOutput.irqs sampleConfig (27 + 60)
        (LX8266DMXOutput.start sampleConfig
          (LX8266DMXOutput.new sampleConfig sampleRaw)))._dmx_state = DMX_STATE_BREAK_SENT ∧
    (LX8266DMXOutput.irqs sampleConfig (27 + 70)
        (LX8266DMXOutput.start sampleConfig
          (LX8266DMXOutput.new sampleConfig sampleRaw)))._dmx_state = DMX_STATE_BREAK_SENT ∧
    (LX8266DMXOutput.irqs sampleConfig (27 + 71)
        (LX8266DMXOutput.start sampleConfig
          (LX8266DMXOutput.new sampleConfig sampleRaw)))._dmx_state = DMX_STATE_START := by
  refine ⟨fun cfg e => ⟨?_, ?_, ?_, ?_⟩, ?_⟩
  · rw [LX8266DMXOutput.run_break_sent_phase cfg _ rfl rfl]
    rfl
  · intro j hj
    rw [LX8266DMXOutput.irqs_break_sent_wait cfg _ j rfl rfl hj]
  · rw [LX8266DMXOutput.irqs_break_sent_wait cfg _ 60 rfl rfl (by decide)]
  · rw [LX8266DMXOutput.irqs_of_run cfg _ _ _ _
      (LX8266DMXOutput.run_break_sent_phase cfg _ rfl rfl)]
  · rw [LX8266DMXOutput.irqs_sample 27 (by decide),
      LX8266DMXOutput.irqs_sample (27 + 60) (by decide),
      LX8266DMXOutput.irqs_sample (27 + 70) (by decide),
      LX8266DMXOutput.irqs_sample (27 + 71) (by decide)]
    decide

set_option maxRecDepth 100000 in
/-- C14: the code at the entry to `DMX_STATE_IDLE`.  For every engine put there
with the idle counter at zero, the next `DATA_END_WAIT + 1 = 26` events are all
handled in `DMX_STATE_IDLE` and write nothing; the state is still
`DMX_STATE_IDLE` after 25 of them and `DMX_STATE_BREAK` after the 26th only,
and the 27th event runs the break case: it writes 0x00 at the break rate.  So
it is with the default engine under `sampleConfig` after its first frame, whose
last data slot goes out with event 611: 25 events later the state is still
`DMX_STATE_IDLE`, 26 events later it is `DMX_STATE_BREAK`. -/
theorem data_end_wait_events :
    (∀ (cfg : Config) (e : LX8266DMXOutput),
      (LX8266DMXOutput.run cfg (DATA_END_WAIT + 1)
          { e with _dmx_state := DMX_STATE_IDLE, _idle_count := 0 }).1 =
        List.replicate 26 { state := DMX_STATE_IDLE, writes := [] } ∧
      (∀ j, j ≤ DATA_END_WAIT → (LX8266DMXOutput.irqs cfg j
          { e with _dmx_state := DMX_STATE_IDLE, _idle_count := 0 })._dmx_state =
        DMX_STATE_IDLE) ∧
      (LX8266DMXOutput.irqs cfg 25
          { e with _dmx_state := DMX_STATE_IDLE, _idle_count := 0 })._dmx_state =
        DMX_STATE_IDLE ∧
      (LX8266DMXOutput.irqs cfg (DATA_END_WAIT + 1)
          { e with _dmx_state := DMX_STATE_IDLE, _idle_count := 0 })._dmx_state =
        DMX_STATE_BREAK ∧
      (LX8266DMXOutput.run cfg 1 (LX8266DMXOutput.irqs cfg (DATA_END_WAIT + 1)
          { e with _dmx_state := DMX_STATE_IDLE, _idle_count := 0 })).1 =
        [{ state := DMX_STATE_BREAK
           writes := [{ USD := cfg.ESP8266_CLOCK / DMX_BREAK_BAUD, USC0 := FORMAT_8E1,
                        value := 0 }] }]) ∧
    ((LX8266DMXOutput.run sampleConfig 611
        (LX8266DMXOutput.start sampleConfig
          (LX8266DMXOutput.new sampleConfig sampleRaw))).1.getLast?.map
        (fun ev => (ev.state, ev.writes.map (fun w => w.value)))) =
      some (DMX_STATE_DATA, [0]) ∧
    (LX8266DMXOutput.irqs sampleConfig 611
        (LX8266DMXOutput.start sampleConfig
          (LX8266DMXOutput.new sampleConfig sampleRaw)))._dmx_state = DMX_STATE_IDLE ∧
    (LX8266DMXOutput.irqs sampleConfig 611
        (LX8266DMXOutput.start sampleConfig
          (LX8266DMXOutput.new sampleConfig sampleRaw)))._idle_count = 0 ∧
    (LX8266DMXOutput.irqs sampleConfig 611
        (LX8266DMXOutput.start sampleConfig
          (LX8266DMXOutput.new sampleConfig sampleRaw)))._current_slot = 513 ∧
    (LX8266DMXOutput.irqs sampleConfig 25
      (LX8266DMXOutput.irqs sampleConfig 611
        (LX8266DMXOutput.start sampleConfig
          (LX8266DMXOutput.new sampleConfig sampleRaw))))._dmx_state = DMX_STATE_IDLE ∧
    (LX8266DMXOutput.irqs sampleConfig 26
      (LX8266DMXOutput.irqs sampleConfig 611
        (LX8266DMXOutput.start sampleConfig
          (LX8266DMXOutput.new sampleConfig sampleRaw))))._dmx_state = DMX_STATE_BREAK := by
  refine ⟨fun cfg e => ⟨?_, ?_, ?_, ?_, ?_⟩, ?_⟩
  · rw [LX8266DMXOutput.run_idle_phase cfg _ rfl rfl]
    rfl
  · intro j hj
    rw [LX8266DMXOutput.irqs_idle_wait cfg _ j rfl rfl hj]
  · rw [LX8266DMXOutput.irqs_idle_wait cfg _ 25 rfl rfl (by decide)]
  · rw [LX8266DMXOutput.irqs_of_run cfg _ _ _ _
      (LX8266DMXOutput.run_idle_phase cfg _ rfl rfl)]
    rfl
  · rw [LX8266DMXOutput.irqs_of_run cfg _ _ _ _
      (LX8266DMXOutput.run_idle_phase cfg _ rfl rfl), LX8266DMXOutput.run_break_step]
    rfl
  · have hrun := LX8266DMXOutput.run_frame sampleConfig
      (LX8266DMXOutput.start sampleConfig (LX8266DMXOutput.new sampleConfig sampleRaw))
      (by decide) (by decide)
    have hL : LX8266DMXOutput.lastSlot
        (LX8266DMXOutput.start sampleConfig (LX8266DMXOutput.new sampleConfig sampleRaw)) +
        99 = 611 := by decide
    rw [hL] at hrun
    rw [hrun, LX8266DMXOutput.irqs_sample 611 (by decide)]
    decide

/-- C15, amended: `stop`, `setMaxSlots`, `setSlot` and `dmxData` leave
`_dmx_state` as it is in every state of the engine, and so does `start` on an
engine whose lifecycle flag is `ISR_ENABLED`.  A `start` that finds the flag
otherwise sets `_dmx_state` to `DMX_STATE_IDLE`.  Hence a call that changes
`_dmx_state` is `_tx_empty_irq`, or a `start` on an engine that was not
enabled. -/
theorem state_changes_in_handler_or_start (cfg : Config) (e : LX8266DMXOutput) :
    (LX8266DMXOutput.stop cfg e)._dmx_state = e._dmx_state ∧
    (∀ n, (LX8266DMXOutput.setMaxSlots cfg e n)._dmx_state = e._dmx_state) ∧
    (∀ k v e1, LX8266DMXOutput.setSlot e k v = some e1 → e1._dmx_state = e._dmx_state) ∧
    LX8266DMXOutput.dmxData e = e._dmxData ∧
    (e._interrupt_status = ISR_ENABLED →
      (LX8266DMXOutput.start cfg e)._dmx_state = e._dmx_state) ∧
    (e._interrupt_status ≠ ISR_ENABLED →
      (LX8266DMXOutput.start cfg e)._dmx_state = DMX_STATE_IDLE) ∧
    (∀ op e1, applyOp cfg op e = some e1 → e1._dmx_state ≠ e._dmx_state →
      op = Op.tx_empty_irq ∨
        (op = Op.start ∧ e._interrupt_status ≠ ISR_ENABLED ∧
          e1._dmx_state = DMX_STATE_IDLE)) := by
  have hset : ∀ k v e1, LX8266DMXOutput.setSlot e k v = some e1 →
      e1._dmx_state = e._dmx_state := by
    intro k v e1 h
    simp only [LX8266DMXOutput.setSlot] at h
    split_ifs at h
    cases h
    rfl
  have hon : e._interrupt_status = ISR_ENABLED →
      (LX8266DMXOutput.start cfg e)._dmx_state = e._dmx_state := by
    intro h
    simp [LX8266DMXOutput.start, h]
  have hoff : e._interrupt_status ≠ ISR_ENABLED →
      (LX8266DMXOutput.start cfg e)._dmx_state = DMX_STATE_IDLE := by
    intro h
    rw [LX8266DMXOutput.start_eq cfg e h]
  refine ⟨rfl, fun _ => rfl, hset, rfl, hon, hoff, ?_⟩
  intro op e1 h hne
  cases op with
  | setMaxSlots n =>
    simp only [applyOp, Option.some.injEq] at h
    subst h
    exact absurd rfl hne
  | setSlot k v => exact absurd (hset k v e1 h) hne
  | start =>
    simp only [applyOp, Option.some.injEq] at h
    subst h
    by_cases hf : e._interrupt_status = ISR_ENABLED
    · exact absurd (hon hf) hne
    · exact Or.inr ⟨rfl, hf, hoff hf⟩
  | stop =>
    simp only [applyOp, Option.some.injEq] at h
    subst h
    exact absurd rfl hne
  | tx_empty_irq => exact Or.inl rfl

set_option maxRecDepth 100000 in
/-- C15 as stated fails: the default engine under `sampleConfig` is started,
handles 100 events and is stopped in the data phase; the `start` that follows
changes `_dmx_state` from `DMX_STATE_DATA` to `DMX_STATE_IDLE`. -/
theorem state_changes_in_handler_or_start_counterexample :
    (LX8266DMXOutput.stop sampleConfig
      (LX8266DMXOutput.irqs sampleConfig 100
        (LX8266DMXOutput.start sampleConfig
          (LX8266DMXOutput.new sampleConfig sampleRaw))))._dmx_state = DMX_STATE_DATA ∧
    (LX8266DMXOutput.start sampleConfig
      (LX8266DMXOutput.stop sampleConfig
        (LX8266DMXOutput.irqs sampleConfig 100
          (LX8266DMXOutput.start sampleConfig
            (LX8266DMXOutput.new sampleConfig sampleRaw)))))._dmx_state = DMX_STATE_IDLE ∧
    (LX8266DMXOutput.start sampleConfig
      (LX8266DMXOutput.stop sampleConfig
        (LX8266DMXOutput.irqs sampleConfig 100
          (LX8266DMXOutput.start sampleConfig
            (LX8266DMXOutput.new sampleConfig sampleRaw)))))._dmx_state ≠
      (LX8266DMXOutput.stop sampleConfig
        (LX8266DMXOutput.irqs sampleConfig 100
          (LX8266DMXOutput.start sampleConfig
            (LX8266DMXOutput.new sampleConfig sampleRaw))))._dmx_state := by
  rw [LX8266DMXOutput.irqs_sample 100 (by decide)]
  decide

/-- C16: for every state of the engine, `_tx_empty_irq` leaves the slot buffer
(every byte of it), the slot count `_slots` and the lifecycle flag
`_interrupt_status` unchanged; the engine it returns is the one it found but
for `_dmx_state`, `_idle_count`, `_current_slot`, the divisor register, the
format register and the FIFO. -/
theorem handler_only_reads_shared_fields (cfg : Config) (e : LX8266DMXOutput) :
    (LX8266DMXOutput._tx_empty_irq cfg e)._dmxData = e._dmxData ∧
    (∀ i : Nat, (LX8266DMXOutput._tx_empty_irq cfg e)._dmxData[i]? = e._dmxData[i]?) ∧
    (LX8266DMXOutput._tx_empty_irq cfg e)._slots = e._slots ∧
    (LX8266DMXOutput._tx_empty_irq cfg e)._interrupt_status = e._interrupt_status ∧
    LX8266DMXOutput._tx_empty_irq cfg e =
      { e with
        _dmx_state := (LX8266DMXOutput._tx_empty_irq cfg e)._dmx_state
        _idle_count := (LX8266DMXOutput._tx_empty_irq cfg e)._idle_count
        _current_slot := (LX8266DMXOutput._tx_empty_irq cfg e)._current_slot
        hw := { e.hw with
          USD := (LX8266DMXOutput._tx_empty_irq cfg e).hw.USD
          USC0 := (LX8266DMXOutput._tx_empty_irq cfg e).hw.USC0
          USF := (LX8266DMXOutput._tx_empty_irq cfg e).hw.USF } } := by
  obtain ⟨h1, h2, h3⟩ := irq_keeps cfg e
  exact ⟨h2, fun i => by rw [h2], h1, h3, LX8266DMXOutput.irq_changes cfg e⟩

/-- C17, amended: under the layout given next to the constants, `FORMAT_8N2`
(0x3C) is eight data bits, two stop bits, parity disabled; `FORMAT_8E1` (0x1C)
is eight data bits, one stop bit and parity disabled as well, its bits 0 and 1
being clear as in `FORMAT_8N2`.  The two formats differ in the stop-bit field
and nowhere else: in bit 5 only. -/
theorem format_constants_decode :
    formatDataBits FORMAT_8N2 = EIGHT_BITS ∧
    formatStopBits FORMAT_8N2 = TWO_STOP_BIT ∧
    formatParityEnabled FORMAT_8N2 = false ∧
    formatDataBits FORMAT_8E1 = EIGHT_BITS ∧
    formatStopBits FORMAT_8E1 = ONE_STOP_BIT ∧
    formatParityEnabled FORMAT_8E1 = false ∧
    formatParityOdd FORMAT_8E1 = false ∧
    formatStopBits FORMAT_8E1 ≠ formatStopBits FORMAT_8N2 ∧
    formatParityEnabled FORMAT_8E1 = formatParityEnabled FORMAT_8N2 ∧
    formatParityOdd FORMAT_8E1 = formatParityOdd FORMAT_8N2 ∧
    FORMAT_8N2 ^^^ FORMAT_8E1 = 1 <<< 5 := by
  decide

/-- C17 as stated fails: bit `UCPAE` of `FORMAT_8E1` (0x1C) is clear, so the
format has no parity bit, and its parity bits are those of `FORMAT_8N2`. -/
theorem format_constants_decode_counterexample :
    ¬ (formatDataBits FORMAT_8E1 = EIGHT_BITS ∧ formatStopBits FORMAT_8E1 = ONE_STOP_BIT ∧
        formatParityEnabled FORMAT_8E1 = true ∧ formatParityOdd FORMAT_8E1 = false) ∧
    ¬ (formatStopBits FORMAT_8E1 ≠ formatStopBits FORMAT_8N2 ∧
        (formatParityEnabled FORMAT_8E1 ≠ formatParityEnabled FORMAT_8N2 ∨
          formatParityOdd FORMAT_8E1 ≠ formatParityOdd FORMAT_8N2)) := by
  decide

/-- C18: with the "TX FIFO empty" bit `UIFE` of the interrupt status register
set, `uart_tx_interrupt_handler` writes `1 << UIFE` to the interrupt clear
register and runs `_tx_empty_irq` once; with the bit clear it does not run
`_tx_empty_irq` and returns the engine as it found it.  This holds whatever the
other bits of the status register are. -/
theorem handler_runs_irq_once_when_pending (cfg : Config) (e : LX8266DMXOutput)
    (hbit : cfg.UIFE < 32) :
    (e.hw.USIS.testBit cfg.UIFE = true →
      uart_tx_interrupt_handler cfg e =
        LX8266DMXOutput.irqs cfg 1 { e with hw := { e.hw with USIC := 1 <<< cfg.UIFE } } ∧
      (uart_tx_interrupt_handler cfg e).hw.USIC = 1 <<< cfg.UIFE) ∧
    (e.hw.USIS.testBit cfg.UIFE = false →
      uart_tx_interrupt_handler cfg e = LX8266DMXOutput.irqs cfg 0 e ∧
      uart_tx_interrupt_handler cfg e = e) := by
  have hb : bit32 cfg.UIFE = 1 <<< cfg.UIFE := bit32_eq _ hbit
  constructor
  · intro h
    have hc : e.hw.USIS &&& bit32 cfg.UIFE ≠ 0 := (and_bit32_ne_zero _ _ hbit).mpr h
    have h1 : uart_tx_interrupt_handler cfg e =
        LX8266DMXOutput._tx_empty_irq cfg
          { e with hw := { e.hw with USIC := bit32 cfg.UIFE } } := by
      unfold uart_tx_interrupt_handler
      rw [if_pos hc]
    rw [h1, hb]
    refine ⟨rfl, ?_⟩
    rw [LX8266DMXOutput.irq_changes cfg { e with hw := { e.hw with USIC := 1 <<< cfg.UIFE } }]
  · intro h
    have hc : ¬ (e.hw.USIS &&& bit32 cfg.UIFE ≠ 0) := by
      rw [and_bit32_ne_zero _ _ hbit, h]
      simp
    have h1 : uart_tx_interrupt_handler cfg e = e := by
      unfold uart_tx_interrupt_handler
      rw [if_neg hc]
    exact ⟨h1, h1⟩

/-- C18, at concrete inputs: the default engine under `sampleConfig` (`UIFE`
is bit 1), started, with the status register at 0x102 (bit 1 set, and another
bit) and at 0x101 (bit 1 clear). -/
theorem handler_runs_irq_once_when_pending_witness :
    sampleConfig.UIFE < 32 ∧
    (uart_tx_interrupt_handler sampleConfig
      { LX8266DMXOutput.start sampleConfig (LX8266DMXOutput.new sampleConfig sampleRaw) with
        hw := { (LX8266DMXOutput.start sampleConfig
          (LX8266DMXOutput.new sampleConfig sampleRaw)).hw with USIS := 0x102 } }).hw.USIC =
      2 ∧
    (uart_tx_interrupt_handler sampleConfig
      { LX8266DMXOutput.start sampleConfig (LX8266DMXOutput.new sampleConfig sampleRaw) with
        hw := { (LX8266DMXOutput.start sampleConfig
          (LX8266DMXOutput.new sampleConfig sampleRaw)).hw with USIS := 0x102 } })._idle_count =
      1 ∧
    (uart_tx_interrupt_handler sampleConfig
      { LX8266DMXOutput.start sampleConfig (LX8266DMXOutput.new sampleConfig sampleRaw) with
        hw := { (LX8266DMXOutput.start sampleConfig
          (LX8266DMXOutput.new sampleConfig sampleRaw)).hw with USIS := 0x101 } })._idle_count =
      0 := by
  have hb : sampleConfig.UIFE < 32 := by decide
  have h1 := ((handler_runs_irq_once_when_pending sampleConfig
    { LX8266DMXOutput.start sampleConfig (LX8266DMXOutput.new sampleConfig sampleRaw) with
      hw := { (LX8266DMXOutput.start sampleConfig
        (LX8266DMXOutput.new sampleConfig sampleRaw)).hw with USIS := 0x102 } } hb).1
    (by decide))
  have h2 := ((handler_runs_irq_once_when_pending sampleConfig
    { LX8266DMXOutput.start sampleConfig (LX8266DMXOutput.new sampleConfig sampleRaw) with
      hw := { (LX8266DMXOutput.start sampleConfig
        (LX8266DMXOutput.new sampleConfig sampleRaw)).hw with USIS := 0x101 } } hb).2
    (by decide)).2
  refine ⟨hb, h1.2, ?_, ?_⟩
  · rw [h1.1]; rfl
  · rw [h2]; rfl

/-- C19: an engine with a buffer of `DMX_MAX_SLOTS + 1` entries is started and
then taken through any sequence of `_tx_empty_irq`, `setSlot` and `setMaxSlots`
calls (and `start` and `stop` calls as well) along which the slot count stays
between 1 and `DMX_MAX_SLOTS`.  In every engine on the way, the cursor is
between 1 and `DMX_MAX_SLOTS` whenever the state is `DMX_STATE_DATA`; the index
the handler reads next, 0 in `DMX_STATE_START` and the cursor in
`DMX_STATE_DATA`, is inside the buffer; the byte read there is the buffer
entry; and the handler does the same whatever lies behind the buffer. -/
theorem handler_reads_stay_in_buffer (cfg : Config) (e0 : LX8266DMXOutput)
    (ops : List Op) (tr : List LX8266DMXOutput)
    (hlen : e0._dmxData.length = cfg.DMX_MAX_SLOTS + 1)
    (hoff : e0._interrupt_status ≠ ISR_ENABLED)
    (htr : traceOps cfg ops (LX8266DMXOutput.start cfg e0) = some tr)
    (hslots : ∀ s ∈ tr, 1 ≤ s._slots ∧ s._slots ≤ cfg.DMX_MAX_SLOTS) :
    ∀ s ∈ tr,
      (s._dmx_state = DMX_STATE_DATA →
        1 ≤ s._current_slot ∧ s._current_slot ≤ cfg.DMX_MAX_SLOTS) ∧
      s._dmxData.length = cfg.DMX_MAX_SLOTS + 1 ∧
      (s._dmx_state = DMX_STATE_START → 0 < s._dmxData.length ∧
        s._dmxData[0]? = some (LX8266DMXOutput.readSlot s 0)) ∧
      (s._dmx_state = DMX_STATE_DATA → s._current_slot < s._dmxData.length ∧
        s._dmxData[s._current_slot]? = some (LX8266DMXOutput.readSlot s s._current_slot)) ∧
      (∀ b, LX8266DMXOutput._tx_empty_irq cfg { s with behind := b } =
        { LX8266DMXOutput._tx_empty_irq cfg s with behind := b }) := by
  intro s hs
  have hst := LX8266DMXOutput.start_eq cfg e0 hoff
  have h0len : (LX8266DMXOutput.start cfg e0)._dmxData.length = cfg.DMX_MAX_SLOTS + 1 := by
    rw [hst]; exact hlen
  have h0cur : (LX8266DMXOutput.start cfg e0)._dmx_state = DMX_STATE_DATA →
      1 ≤ (LX8266DMXOutput.start cfg e0)._current_slot ∧
        (LX8266DMXOutput.start cfg e0)._current_slot ≤ cfg.DMX_MAX_SLOTS := by
    rw [hst]
    intro h
    cases h
  obtain ⟨hl, hc⟩ := traceOps_cursor cfg ops _ tr htr h0len h0cur hslots s hs
  have hS : s._dmx_state = DMX_STATE_START → 0 < s._dmxData.length := by
    intro _
    omega
  have hD : s._dmx_state = DMX_STATE_DATA → s._current_slot < s._dmxData.length := by
    intro h
    have := (hc h).2
    omega
  exact ⟨hc, hl, fun h => ⟨hS h, LX8266DMXOutput.readSlot_of_lt s 0 (hS h)⟩,
    fun h => ⟨hD h, LX8266DMXOutput.readSlot_of_lt s _ (hD h)⟩,
    fun b => LX8266DMXOutput.irq_behind cfg s b hS hD⟩

set_option maxRecDepth 100000 in
/-- C19, at a concrete input: the default engine under `sampleConfig` is
started, handles 105 events (the cursor is then at 7), has its slot count
lowered to 24 and slot 7 written, and handles two more events. -/
theorem handler_reads_stay_in_buffer_witness :
    (LX8266DMXOutput.new sampleConfig sampleRaw)._dmxData.length =
      sampleConfig.DMX_MAX_SLOTS + 1 ∧
    (LX8266DMXOutput.new sampleConfig sampleRaw)._interrupt_status ≠ ISR_ENABLED ∧
    ∃ tr, traceOps sampleConfig
        (List.replicate 105 Op.tx_empty_irq ++
          [Op.setMaxSlots 24, Op.setSlot 7 255, Op.tx_empty_irq, Op.tx_empty_irq])
        (LX8266DMXOutput.start sampleConfig (LX8266DMXOutput.new sampleConfig sampleRaw)) =
        some tr ∧
      (∀ s ∈ tr, 1 ≤ s._slots ∧ s._slots ≤ sampleConfig.DMX_MAX_SLOTS) ∧
      tr.length = 110 ∧
      ∀ s ∈ tr, s._dmx_state = DMX_STATE_DATA →
        1 ≤ s._current_slot ∧ s._current_slot ≤ sampleConfig.DMX_MAX_SLOTS := by
  have hlen : (LX8266DMXOutput.new sampleConfig sampleRaw)._dmxData.length =
      sampleConfig.DMX_MAX_SLOTS + 1 := by decide
  have hoff : (LX8266DMXOutput.new sampleConfig sampleRaw)._interrupt_status ≠
      ISR_ENABLED := by decide
  have htr : traceOps sampleConfig
      (List.replicate 105 Op.tx_empty_irq ++
        [Op.setMaxSlots 24, Op.setSlot 7 255, Op.tx_empty_irq, Op.tx_empty_irq])
      (LX8266DMXOutput.start sampleConfig (LX8266DMXOutput.new sampleConfig sampleRaw)) =
      some ((traceOps sampleConfig
        (List.replicate 105 Op.tx_empty_irq ++
          [Op.setMaxSlots 24, Op.setSlot 7 255, Op.tx_empty_irq, Op.tx_empty_irq])
        (LX8266DMXOutput.start sampleConfig
          (LX8266DMXOutput.new sampleConfig sampleRaw))).getD []) := by
    rfl
  have hslots : ∀ s ∈ (traceOps sampleConfig
        (List.replicate 105 Op.tx_empty_irq ++
          [Op.setMaxSlots 24, Op.setSlot 7 255, Op.tx_empty_irq, Op.tx_empty_irq])
        (LX8266DMXOutput.start sampleConfig
          (LX8266DMXOutput.new sampleConfig sampleRaw))).getD [],
      1 ≤ s._slots ∧ s._slots ≤ sampleConfig.DMX_MAX_SLOTS := by
    decide
  have hlen110 : ((traceOps sampleConfig
        (List.replicate 105 Op.tx_empty_irq ++
          [Op.setMaxSlots 24, Op.setSlot 7 255, Op.tx_empty_irq, Op.tx_empty_irq])
        (LX8266DMXOutput.start sampleConfig
          (LX8266DMXOutput.new sampleConfig sampleRaw))).getD []).length = 110 := by
    decide
  exact ⟨hlen, hoff, _, htr, hslots, hlen110, fun s hs =>
    (handler_reads_stay_in_buffer sampleConfig (LX8266DMXOutput.new sampleConfig sampleRaw)
      _ _ hlen hoff htr hslots s hs).1⟩

/-- C20: for a slot count `N ≥ 1`, from `DMX_STATE_IDLE` with the idle counter
at zero and the line at the data rate with `FORMAT_8N2`, `N + 99` events (26
of the settle wait, the break, 71 of the settle wait after it, the start code
and `N` slots) bring the engine back to `DMX_STATE_IDLE` with the idle counter
at zero and the line at the data rate with `FORMAT_8N2`: the engine is the one
the events began on but for the cursor and the FIFO.  No number of events
between 1 and `N + 98` reaches `DMX_STATE_IDLE` with the idle counter at zero,
and every multiple of `N + 99` does. -/
theorem frame_period (cfg : Config) (e : LX8266DMXOutput) (N : Nat)
    (hN : 1 ≤ N) (hslots : e._slots = N)
    (hs : e._dmx_state = DMX_STATE_IDLE) (hi : e._idle_count = 0)
    (hUSD : e.hw.USD = cfg.ESP8266_CLOCK / DMX_DATA_BAUD)
    (hUSC0 : e.hw.USC0 = FORMAT_8N2) :
    (DATA_END_WAIT + 1) + 1 + (BREAK_SENT_WAIT + 1) + 1 + N = N + 99 ∧
    (LX8266DMXOutput.irqs cfg (N + 99) e)._dmx_state = DMX_STATE_IDLE ∧
    (LX8266DMXOutput.irqs cfg (N + 99) e)._idle_count = 0 ∧
    (LX8266DMXOutput.irqs cfg (N + 99) e).hw.USD = cfg.ESP8266_CLOCK / DMX_DATA_BAUD ∧
    (LX8266DMXOutput.irqs cfg (N + 99) e).hw.USC0 = FORMAT_8N2 ∧
    (LX8266DMXOutput.irqs cfg (N + 99) e)._slots = N ∧
    LX8266DMXOutput.irqs cfg (N + 99) e =
      { e with
        _current_slot := N + 1
        hw := { e.hw with USF := (LX8266DMXOutput.irqs cfg (N + 99) e).hw.USF } } ∧
    (∀ j, 0 < j → j < N + 99 →
      ¬ ((LX8266DMXOutput.irqs cfg j e)._dmx_state = DMX_STATE_IDLE ∧
        (LX8266DMXOutput.irqs cfg j e)._idle_count = 0)) ∧
    (∀ k, (LX8266DMXOutput.irqs cfg (k * (N + 99)) e)._dmx_state = DMX_STATE_IDLE ∧
      (LX8266DMXOutput.irqs cfg (k * (N + 99)) e)._idle_count = 0) := by
  have hL : LX8266DMXOutput.lastSlot e = N := by
    show max e._slots 1 = N
    rw [hslots]
    exact max_eq_left hN
  have hend : LX8266DMXOutput.irqs cfg (N + 99) e = LX8266DMXOutput.frameEnd cfg e := by
    have h := LX8266DMXOutput.run_frame cfg e hs hi
    rw [hL] at h
    exact LX8266DMXOutput.irqs_of_run cfg _ _ _ _ h
  refine ⟨by simp only [DATA_END_WAIT, BREAK_SENT_WAIT]; omega, ?_, ?_, ?_, ?_, ?_, ?_, ?_, ?_⟩
  · rw [hend]; rfl
  · rw [hend]; rfl
  · rw [hend]; rfl
  · rw [hend]; rfl
  · rw [hend]; exact hslots
  · rw [hend]
    simp only [LX8266DMXOutput.frameEnd, LX8266DMXOutput.atData, hL, ← hUSD, ← hUSC0, ← hs,
      ← hi]
  · intro j hj0 hj ⟨h1, h2⟩
    have hjL : j ≤ LX8266DMXOutput.lastSlot e + 99 := by omega
    rw [LX8266DMXOutput.irqs_frameAt cfg e j hs hi hjL] at h1 h2
    have hf := (LX8266DMXOutput.frameAt_facts cfg e j hs hjL).2.2.1.mp h1
    rcases hf with hle | heq
    · rw [LX8266DMXOutput.frameAt_idle_count cfg e j hle] at h2
      omega
    · omega
  · intro k
    have h := LX8266DMXOutput.irqs_frames cfg k e hs hi
    rw [hL] at h
    exact ⟨h.1, h.2.1⟩

set_option maxRecDepth 100000 in
/-- C20, at a concrete input: the engine of the example (slot count 3),
started. -/
theorem frame_period_witness :
    ((1 : Nat) ≤ 3 ∧
      (LX8266DMXOutput.start sampleConfig exampleEngine)._slots = 3 ∧
      (LX8266DMXOutput.start sampleConfig exampleEngine)._dmx_state = DMX_STATE_IDLE ∧
      (LX8266DMXOutput.start sampleConfig exampleEngine)._idle_count = 0 ∧
      (LX8266DMXOutput.start sampleConfig exampleEngine).hw.USD =
        sampleConfig.ESP8266_CLOCK / DMX_DATA_BAUD ∧
      (LX8266DMXOutput.start sampleConfig exampleEngine).hw.USC0 = FORMAT_8N2) ∧
    (LX8266DMXOutput.irqs sampleConfig 102
      (LX8266DMXOutput.start sampleConfig exampleEngine))._dmx_state = DMX_STATE_IDLE ∧
    (LX8266DMXOutput.irqs sampleConfig 102
      (LX8266DMXOutput.start sampleConfig exampleEngine))._idle_count = 0 ∧
    ¬ ((LX8266DMXOutput.irqs sampleConfig 101
        (LX8266DMXOutput.start sampleConfig exampleEngine))._dmx_state = DMX_STATE_IDLE ∧
      (LX8266DMXOutput.irqs sampleConfig 101
        (LX8266DMXOutput.start sampleConfig exampleEngine))._idle_count = 0) := by
  have h1 : (1 : Nat) ≤ 3 := by decide
  have h2 : (LX8266DMXOutput.start sampleConfig exampleEngine)._slots = 3 := by decide
  have h3 : (LX8266DMXOutput.start sampleConfig exampleEngine)._dmx_state =
      DMX_STATE_IDLE := by decide
  have h4 : (LX8266DMXOutput.start sampleConfig exampleEngine)._idle_count = 0 := by decide
  have h5 : (LX8266DMXOutput.start sampleConfig exampleEngine).hw.USD =
      sampleConfig.ESP8266_CLOCK / DMX_DATA_BAUD := by decide
  have h6 : (LX8266DMXOutput.start sampleConfig exampleEngine).hw.USC0 = FORMAT_8N2 := by
    decide
  have h := frame_period sampleConfig (LX8266DMXOutput.start sampleConfig exampleEngine) 3
    h1 h2 h3 h4 h5 h6
  exact ⟨⟨h1, h2, h3, h4, h5, h6⟩, h.2.1, h.2.2.1, h.2.2.2.2.2.2.2.1 101 (by decide) (by decide)⟩

end LXESP8266DMX
